import Mathlib

/-!
# mongoose-datatables-serverside: the query adapter of `index.js`

A shallow embedding of the single exported function of `src/index.js`, which turns a
DataTables server-side request into a Mongoose query, runs it and a count, and shapes
the response.

Layout: JavaScript values and the built-ins the adapter calls, plain objects with
JavaScript's own-key order, the Store (the Mongoose model and its query builder), the
request, the adapter itself, and then the theorems.

Conventions of the embedding.
* A request field that is absent reads as `undefined`, as the destructuring of the source
  sees it.
* Leaf values the adapter inspects are JavaScript primitives. Numbers are the
  integer-valued ones and `NaN`.
* `new RegExp` and `JSON.parse` are supplied by a `Runtime`; the Mongoose model is supplied
  as a `Model`. The asynchronous calls are sequenced in the `Except` monad.
-/

namespace DataTables

/-! ## JavaScript values -/

/-- A JavaScript primitive value. `num n` is the integer-valued number `n`. -/
inductive JSVal where
  | undefined
  | null
  | bool (b : Bool)
  | num (n : Int)
  | nan
  | str (s : String)
  deriving DecidableEq, Repr, Inhabited

/-- What a failing call throws (or the promise rejects with). -/
inductive JSErr where
  | typeError
  | syntaxError
  | storeFault (code : Nat)
  deriving DecidableEq, Repr

/-- The operator `typeof`. -/
def typeOf : JSVal → String
  | .undefined => "undefined"
  | .null => "object"
  | .bool _ => "boolean"
  | .num _ => "number"
  | .nan => "number"
  | .str _ => "string"

/-- The abstract operation `ToBoolean`: what a condition treats as true. -/
def toBoolean : JSVal → Bool
  | .undefined => false
  | .null => false
  | .bool b => b
  | .num n => n != 0
  | .nan => false
  | .str s => s != ""

/-- The decimal digit character of `d` (for `d < 10`). -/
def digitChar (d : Nat) : Char := Char.ofNat (48 + d)

/-- Decimal digits of `n`, most significant first, prepended to `acc`. -/
def natDigitsAux : Nat → Nat → List Char → List Char
  | 0, _, acc => acc
  | fuel + 1, n, acc =>
    if n / 10 = 0 then digitChar (n % 10) :: acc
    else natDigitsAux fuel (n / 10) (digitChar (n % 10) :: acc)

/-- Decimal digits of `n`, most significant first: `0` gives `['0']`. -/
def natDigits (n : Nat) : List Char := natDigitsAux (n + 1) n []

/-- The digits of a magnitude of `10^21` or more in exponent form: the first digit, then
a point and the further digits up to the last one that is not zero, then `e+` and the
decimal exponent. -/
def exponentDigits (ds : List Char) : List Char :=
  match (ds.reverse.dropWhile (fun c => c == '0')).reverse with
  | [] => []
  | [d] => d :: 'e' :: '+' :: natDigits (ds.length - 1)
  | d :: rest => d :: '.' :: (rest ++ 'e' :: '+' :: natDigits (ds.length - 1))

/-- The operation `Number::toString` on an integer-valued number (radix 10): plain decimal
digits below `10^21` in magnitude, exponent form from there on (with the digits of `n`
itself, which are the ones JavaScript prints when `n` has at most 15 significant
digits). -/
def numToStr (n : Int) : String :=
  let ds := if n.natAbs < 10 ^ 21 then natDigits n.natAbs else exponentDigits (natDigits n.natAbs)
  if n < 0 then String.mk ('-' :: ds) else String.mk ds

/-- The abstract operation `ToString` on a primitive. -/
def toStr : JSVal → String
  | .undefined => "undefined"
  | .null => "null"
  | .bool b => if b then "true" else "false"
  | .num n => numToStr n
  | .nan => "NaN"
  | .str s => s

/-- The code points of `StrWhiteSpaceChar` (white space and line terminators). -/
def isStrWhiteSpaceChar (c : Char) : Bool :=
  let n := c.toNat
  n == 0x09 || n == 0x0A || n == 0x0B || n == 0x0C || n == 0x0D || n == 0x20 || n == 0xA0
    || n == 0x1680 || (0x2000 ≤ n && n ≤ 0x200A) || n == 0x2028 || n == 0x2029
    || n == 0x202F || n == 0x205F || n == 0x3000 || n == 0xFEFF

/-- A decimal digit. -/
def isDecDigit (c : Char) : Bool := 48 ≤ c.toNat && c.toNat ≤ 57

/-- The value of a digit in radix up to 16, when the character is one. -/
def digitVal (c : Char) : Option Nat :=
  let n := c.toNat
  if 48 ≤ n && n ≤ 57 then some (n - 48)
  else if 97 ≤ n && n ≤ 102 then some (n - 87)
  else if 65 ≤ n && n ≤ 70 then some (n - 55)
  else none

/-- A digit of the given radix. -/
def isRadixDigit (radix : Nat) (c : Char) : Bool :=
  match digitVal c with
  | some d => d < radix
  | none => false

/-- The grammar `ExponentPart`, or nothing at all. -/
def exponentPartOk : List Char → Bool
  | [] => true
  | e :: r =>
    (e == 'e' || e == 'E') &&
      (match r with
       | '+' :: t => !t.isEmpty && t.all isDecDigit
       | '-' :: t => !t.isEmpty && t.all isDecDigit
       | t => !t.isEmpty && t.all isDecDigit)

/-- The grammar `StrUnsignedDecimalLiteral`. -/
def strUnsignedDecimalLiteralOk (cs : List Char) : Bool :=
  if cs = ['I', 'n', 'f', 'i', 'n', 'i', 't', 'y'] then true
  else
    let ip := cs.takeWhile isDecDigit
    match cs.dropWhile isDecDigit with
    | '.' :: t =>
      (!ip.isEmpty || !(t.takeWhile isDecDigit).isEmpty) && exponentPartOk (t.dropWhile isDecDigit)
    | r => !ip.isEmpty && exponentPartOk r

/-- The grammar `StrNumericLiteral`: a signed decimal literal or an unsigned hexadecimal,
octal or binary integer literal. -/
def strNumericLiteralOk : List Char → Bool
  | '0' :: 'x' :: r => !r.isEmpty && r.all (isRadixDigit 16)
  | '0' :: 'X' :: r => !r.isEmpty && r.all (isRadixDigit 16)
  | '0' :: 'o' :: r => !r.isEmpty && r.all (isRadixDigit 8)
  | '0' :: 'O' :: r => !r.isEmpty && r.all (isRadixDigit 8)
  | '0' :: 'b' :: r => !r.isEmpty && r.all (isRadixDigit 2)
  | '0' :: 'B' :: r => !r.isEmpty && r.all (isRadixDigit 2)
  | '+' :: r => strUnsignedDecimalLiteralOk r
  | '-' :: r => strUnsignedDecimalLiteralOk r
  | cs => strUnsignedDecimalLiteralOk cs

/-- Strip `StrWhiteSpaceChar` from both ends. -/
def trimWhiteSpace (cs : List Char) : List Char :=
  ((cs.dropWhile isStrWhiteSpaceChar).reverse.dropWhile isStrWhiteSpaceChar).reverse

/-- Whether `StringToNumber` yields `NaN`: the trimmed text is neither empty nor a
`StrNumericLiteral`. -/
def stringIsNaN (s : String) : Bool :=
  let t := trimWhiteSpace s.toList
  !(t.isEmpty || strNumericLiteralOk t)

/-- The global function `isNaN`: `ToNumber` of the argument is `NaN`. -/
def isNaN : JSVal → Bool
  | .undefined => true
  | .null => false
  | .bool _ => false
  | .num _ => false
  | .nan => true
  | .str s => stringIsNaN s

/-- The number written by a list of digits in the given radix (non-digits count as 0). -/
def ofDigitChars (radix : Nat) (cs : List Char) : Nat :=
  cs.foldl (fun acc c => acc * radix + (digitVal c).getD 0) 0

/-- The global function `parseInt` with no radix argument: leading white space is skipped,
then a sign, then `0x` selects radix 16, then the longest run of digits is read. -/
def parseInt (v : JSVal) : JSVal :=
  let s := (toStr v).toList.dropWhile isStrWhiteSpaceChar
  let neg := match s with
    | '-' :: _ => true
    | _ => false
  let s1 := match s with
    | '-' :: t => t
    | '+' :: t => t
    | t => t
  let radix := match s1 with
    | '0' :: 'x' :: _ => 16
    | '0' :: 'X' :: _ => 16
    | _ => 10
  let s2 := match s1 with
    | '0' :: 'x' :: t => t
    | '0' :: 'X' :: t => t
    | t => t
  let ds := s2.takeWhile (isRadixDigit radix)
  if ds.isEmpty then .nan
  else if neg then .num (-(ofDigitChars radix ds : Int)) else .num (ofDigitChars radix ds)

/-! ## Plain objects -/

/-- A plain object: its own enumerable string-keyed properties, listed in the order
`Object.keys` reports them. A list that names a key twice reads like an object literal
that does: the later entry is the one that counts. -/
abbrev Obj (α : Type) := List (String × α)

/-- The array index a property key denotes, when it is one: the canonical decimal text of
an integer from `0` to `2^32 - 2`. Such keys are enumerated before all others, in
ascending numeric order. -/
def arrayIndex? (k : String) : Option Nat :=
  let cs := k.toList
  if !cs.isEmpty && cs.all isDecDigit && natDigits (ofDigitChars 10 cs) = cs
      && ofDigitChars 10 cs ≤ 4294967294 then
    some (ofDigitChars 10 cs)
  else none

namespace Obj

variable {α : Type}

/-- The own keys, in enumeration order (`Object.keys`). -/
def keys (o : Obj α) : List String := o.map Prod.fst

/-- Whether `k` is an own key. -/
def has (o : Obj α) (k : String) : Bool := o.any (fun e => e.1 == k)

/-- Own-property read `o[k]`; `none` stands for a key that is not an own property. -/
def get? : Obj α → String → Option α
  | [], _ => none
  | (k', v) :: r, k =>
    match get? r k with
    | some w => some w
    | none => if k' = k then some v else none

/-- Overwrite the value of the existing key `k`, keeping its place. -/
def replace (o : Obj α) (k : String) (v : α) : Obj α :=
  o.map (fun e => if e.1 = k then (k, v) else e)

/-- Add the new array-index key `k = i`: it goes before the first key that is not an
array index or is a larger one. -/
def insertIndex : Obj α → Nat → String → α → Obj α
  | [], _, k, v => [(k, v)]
  | (k', v') :: r, i, k, v =>
    match arrayIndex? k' with
    | some j => if j < i then (k', v') :: insertIndex r i k v else (k, v) :: (k', v') :: r
    | none => (k, v) :: (k', v') :: r

/-- The operation `CreateDataProperty`, as object spread and computed keys of an object
literal perform it: an existing key keeps its place and takes the new value, a new
array-index key is placed among the array indices, any other new key goes last. -/
def define (o : Obj α) (k : String) (v : α) : Obj α :=
  if has o k then replace o k v
  else
    match arrayIndex? k with
    | some i => insertIndex o i k v
    | none => o ++ [(k, v)]

/-- The assignment `o[k] = v` on an object created by a literal: like `define`, except
that the key `__proto__` reaches the setter inherited from `Object.prototype` and creates
no own property. -/
def set (o : Obj α) (k : String) (v : α) : Obj α :=
  if k = "__proto__" then o else define o k v

/-- Object spread `{ ...target, ...source }` continued: copy the own properties of
`source` onto `target`, in order. -/
def spread (target source : Obj α) : Obj α :=
  source.foldl (fun o e => define o e.1 e.2) target

end Obj

/-! ## The Store: Mongoose query conditions, the query builder and the model -/

/-- The condition a predicate puts on one field. -/
inductive Cond where
  /-- The field equals a literal value. -/
  | eq (v : JSVal)
  /-- The field matches `new RegExp(pattern, flags)`. -/
  | regExp (pattern flags : String)
  /-- The condition `{ $gte: new Date(arg) }`. -/
  | gteDate (arg : JSVal)
  /-- Any other condition the caller supplies, named by a reference. -/
  | other (ref : Nat)
  deriving DecidableEq, Repr

/-- A document of the collection. -/
abbrev Doc := Obj JSVal

/-- The state of the Mongoose query builder: what each builder call was given. `none`
means the call was not made. -/
structure Query where
  /-- The argument of `model.find`. -/
  conditions : Obj Cond
  populate : Option (List String) := none
  /-- The argument of `.or`: a list of one-field clauses. -/
  or : Option (List (String × Cond)) := none
  /-- The argument of `.and`: a list of one-field clauses. -/
  and : Option (List (String × Cond)) := none
  sort : Option (Obj Int) := none
  skip : Option JSVal := none
  limit : Option JSVal := none
  deriving DecidableEq, Repr

/-- The Mongoose model: the schema paths `schema.eachPath` visits, each with the
`instance` name of its schema type, and the two calls that reach the database. -/
structure Model where
  schemaPaths : List (String × String)
  exec : Query → Except JSErr (List Doc)
  countDocuments : Obj Cond → Except JSErr Nat

/-- The two built-ins taken from the JavaScript runtime: whether `new RegExp(pattern, "ig")`
accepts the pattern (it throws a `SyntaxError` otherwise), and whether `JSON.parse(text)`
returns a truthy value (it throws a `SyntaxError` on text that is not JSON). -/
structure Runtime where
  regExpOk : String → Bool
  jsonParseTruthy : String → Except JSErr Bool

/-! ## The request and the response -/

/-- A DataTables search object `{ value, regex }`. -/
structure Search where
  value : JSVal := .undefined
  regex : JSVal := .undefined
  deriving DecidableEq, Repr

/-- A DataTables column definition. `search` is `none` when the column has no search
object. -/
structure Column where
  data : JSVal := .undefined
  searchable : JSVal := .undefined
  search : Option Search := none
  deriving DecidableEq, Repr

/-- An entry of the DataTables `order` array. -/
structure ColumnOrder where
  column : Int
  dir : JSVal := .undefined
  deriving DecidableEq, Repr

/-- The argument `queryOptions`. A leaf field that is absent holds `undefined`; a
compound field that is absent is `none`. -/
structure QueryOptions where
  draw : JSVal := .undefined
  start : JSVal := .undefined
  length : JSVal := .undefined
  search : Option Search := none
  order : Option (List ColumnOrder) := none
  columns : Option (List Column) := none
  populate : Option (List String) := none
  find : Option (Obj Cond) := none
  deriving DecidableEq, Repr

/-- The object the adapter resolves to. -/
structure Response where
  draw : JSVal
  recordsTotal : Nat
  recordsFiltered : Nat
  data : List Doc
  deriving DecidableEq, Repr

/-! ## The adapter -/

/-- A destructuring default `x = d`: it applies when the property reads `undefined`. -/
def orDefault (v d : JSVal) : JSVal :=
  match v with
  | .undefined => d
  | w => w

/-- The expression `search?.value`. -/
def Search.valueOf (search : Option Search) : JSVal :=
  match search with
  | some s => s.value
  | none => .undefined

/-- The expression `search?.regex`. -/
def Search.regexOf (search : Option Search) : JSVal :=
  match search with
  | some s => s.regex
  | none => .undefined

/-- The merged base predicate `{ ...find, ...additionalQueryOptions }`. -/
def findQuery (find : Obj Cond) (additionalQueryOptions : Option (Obj Cond)) : Obj Cond :=
  Obj.spread (Obj.spread [] find) (additionalQueryOptions.getD [])

/-- The inferred kind of the general search term: its `typeof`, replaced by `"number"`
when `isNaN` is false of it. -/
def searchValueDataType (value : JSVal) : String :=
  if !isNaN value then "number" else typeOf value

/-- The constructor call `new RegExp(pattern, "ig")`. -/
def newRegExp (rt : Runtime) (pattern : JSVal) : Except JSErr Cond :=
  let p := match pattern with
    | .undefined => ""
    | v => toStr v
  if rt.regExpOk p then .ok (.regExp p "ig") else .error .syntaxError

/-- The match value `regex ? new RegExp(value, 'ig') : value`, for the general search and
for a column search alike. -/
def searchValue (rt : Runtime) (regex value : JSVal) : Except JSErr Cond :=
  if toBoolean regex then newRegExp rt value else .ok (.eq value)

/-- The call `columns.filter(cb)` with a callback that may throw. -/
def filterE {α : Type} (cb : α → Except JSErr Bool) : List α → Except JSErr (List α)
  | [] => .ok []
  | x :: xs =>
    match cb x with
    | .error e => .error e
    | .ok b =>
      match filterE cb xs with
      | .error e => .error e
      | .ok r => .ok (if b then x :: r else r)

/-- The list `columns.filter((col) => JSON.parse(col.searchable)).map((col) => col.data)`. -/
def searchableFields (rt : Runtime) (columns : List Column) : Except JSErr (List JSVal) :=
  match filterE (fun col => rt.jsonParseTruthy (toStr col.searchable)) columns with
  | .error e => .error e
  | .ok cols => .ok (cols.map (fun col => col.data))

/-- The map filled by `model.schema.eachPath`: each schema path that is one of the
searchable fields, with the `instance` of its schema type. -/
def dataTypeMap (model : Model) (searchableFields : List JSVal) : Obj String :=
  model.schemaPaths.foldl
    (fun m p => if searchableFields.contains (.str p.1) then Obj.set m p.1 p.2 else m) []

/-- The reducer of `searchFilter`: the clause of one searchable field, by its declared
type and the inferred kind of the term. -/
def searchFilterStep (dataTypeMap : Obj String) (searchValue : Cond) (value : JSVal)
    (searchValueDataType : String) (filter : Obj Cond) (field : JSVal) : Obj Cond :=
  let dataType := Obj.get? dataTypeMap (toStr field)
  if dataType = some "String" then Obj.set filter (toStr field) searchValue
  else if dataType = some "Number" && searchValueDataType = "number" then
    Obj.set filter (toStr field) (.eq value)
  else if dataType = some "Date" && searchValueDataType = "date" then
    Obj.set filter (toStr field) (.gteDate value)
  else filter

/-- The object `searchFilter`: `searchableFields.reduce(..., {})`. -/
def searchFilter (dataTypeMap : Obj String) (searchValue : Cond) (value : JSVal)
    (searchValueDataType : String) (searchableFields : List JSVal) : Obj Cond :=
  searchableFields.foldl (searchFilterStep dataTypeMap searchValue value searchValueDataType) []

/-- The list `Object.keys(searchFilter).map((key) => ({ [key]: searchFilter[key] }))`. -/
def generalSearchValuesFilter (searchFilter : Obj Cond) : List (String × Cond) :=
  (Obj.keys searchFilter).map
    (fun key => (key, (Obj.get? searchFilter key).getD (.eq .undefined)))

/-- The general search block: runs when `search?.value` is truthy and ends in
`query.or(generalSearchValuesFilter)`. The `console.log` of the OR group does not touch
the query and is left out. -/
def generalSearch (rt : Runtime) (model : Model) (search : Option Search)
    (columns : List Column) (query : Query) : Except JSErr Query :=
  if toBoolean (Search.valueOf search) then
    match searchValue rt (Search.regexOf search) (Search.valueOf search) with
    | .error e => .error e
    | .ok sv =>
      match searchableFields rt columns with
      | .error e => .error e
      | .ok fields =>
        .ok { query with
              or := some (generalSearchValuesFilter
                (searchFilter (dataTypeMap model fields) sv (Search.valueOf search)
                  (searchValueDataType (Search.valueOf search)) fields)) }
  else .ok query

/-- The list `columns.filter((col) => col?.search?.value)`. -/
def columnSearch (columns : List Column) : List Column :=
  columns.filter (fun col => toBoolean (Search.valueOf col.search))

/-- The list `columnsSearchesFilter`: one clause per column of `columnSearch`, pushed in
order; building a clause may throw. -/
def columnsSearchesFilter (rt : Runtime) : List Column → Except JSErr (List (String × Cond))
  | [] => .ok []
  | col :: cols =>
    match searchValue rt (Search.regexOf col.search) (Search.valueOf col.search) with
    | .error e => .error e
    | .ok sv =>
      match columnsSearchesFilter rt cols with
      | .error e => .error e
      | .ok r => .ok ((toStr col.data, sv) :: r)

/-- The column filter block: runs when `columnSearch` is not empty and ends in
`query.and(columnsSearchesFilter)`. -/
def columnFilter (rt : Runtime) (columns : List Column) (query : Query) : Except JSErr Query :=
  if (columnSearch columns).length != 0 then
    match columnsSearchesFilter rt (columnSearch columns) with
    | .error e => .error e
    | .ok clauses => .ok { query with and := some clauses }
  else .ok query

/-- The element `columns[column]`, `none` standing for `undefined`. -/
def columnAt (columns : List Column) (column : Int) : Option Column :=
  if 0 ≤ column then columns.get? column.toNat else none

/-- The object `sortCriteria` after the `forEach` over `order`; reading `.data` of a
column that does not exist throws a `TypeError`. -/
def sortCriteria (columns : List Column) :
    List ColumnOrder → Obj Int → Except JSErr (Obj Int)
  | [], acc => .ok acc
  | columnOrder :: rest, acc =>
    match columnAt columns columnOrder.column with
    | none => .error .typeError
    | some col =>
      let columnKey := col.data
      let sortDirection : Int := if columnOrder.dir = .str "asc" then 1 else -1
      sortCriteria columns rest (Obj.set acc (toStr columnKey) sortDirection)

/-- The sorting block: `query.sort(sortCriteria)` for a non-empty `order`, otherwise
`query.sort({ _id: -1 })`. -/
def sorting (order : List ColumnOrder) (columns : List Column) (query : Query) :
    Except JSErr Query :=
  if order.length != 0 then
    match sortCriteria columns order [] with
    | .error e => .error e
    | .ok sc => .ok { query with sort := some sc }
  else .ok { query with sort := some [("_id", -1)] }

/-- The query as it stands when `exec` is called: `find`, `populate`, the general search,
the column filter, the sorting, then `skip(parseInt(start))` and `limit(parseInt(length))`. -/
def buildQuery (rt : Runtime) (model : Model) (queryOptions : QueryOptions)
    (additionalQueryOptions : Option (Obj Cond)) : Except JSErr Query :=
  let start := orDefault queryOptions.start (.num 0)
  let length := orDefault queryOptions.length (.num 0)
  let search := queryOptions.search
  let order := queryOptions.order.getD []
  let columns := queryOptions.columns.getD []
  let populate := queryOptions.populate.getD []
  let find := queryOptions.find.getD []
  let query : Query := { conditions := findQuery find additionalQueryOptions }
  let query := { query with populate := some populate }
  match generalSearch rt model search columns query with
  | .error e => .error e
  | .ok query =>
    match columnFilter rt columns query with
    | .error e => .error e
    | .ok query =>
      match sorting order columns query with
      | .error e => .error e
      | .ok query =>
        .ok { query with skip := some (parseInt start), limit := some (parseInt length) }

/-- The exported function: build the query and run it, count the documents of the base
predicate, and shape the response. -/
def exports (rt : Runtime) (model : Model) (queryOptions : QueryOptions)
    (additionalQueryOptions : Option (Obj Cond)) : Except JSErr Response :=
  let draw := orDefault queryOptions.draw (.num 0)
  let find := queryOptions.find.getD []
  match buildQuery rt model queryOptions additionalQueryOptions with
  | .error e => .error e
  | .ok query =>
    match model.exec query with
    | .error e => .error e
    | .ok records =>
      match model.countDocuments (findQuery find additionalQueryOptions) with
      | .error e => .error e
      | .ok totalRecords =>
        .ok { draw := draw, recordsTotal := totalRecords, recordsFiltered := totalRecords,
              data := records }

/-! ## Reading the query and the claims -/

/-- How the database reads the conditions the builder holds: every condition given to
`find` holds, at least one clause of the `$or` group holds, and every clause of the `$and`
group holds. `sat` decides one condition on one field of a document. A group that is
present and empty is given no reading (`none`). -/
def Query.matches (sat : String → Cond → Doc → Bool) (q : Query) (d : Doc) : Option Bool :=
  match q.or, q.and with
  | some [], _ => none
  | _, some [] => none
  | o, a =>
    some (q.conditions.all (fun c => sat c.1 c.2 d)
      && (match o with
          | none => true
          | some cs => cs.any (fun c => sat c.1 c.2 d))
      && (match a with
          | none => true
          | some cs => cs.all (fun c => sat c.1 c.2 d)))

/-- The pagination a Store is expected to perform: `skip(s)` and `limit(l)` with `0 < l`
return at most `l` documents starting at offset `s` of what the same query returns
without them. -/
def Model.Paginates (m : Model) : Prop :=
  ∀ (q : Query) (s l : Nat), 0 < l →
    m.exec { q with skip := some (.num s), limit := some (.num l) } =
      (m.exec { q with skip := none, limit := none }).map (fun docs => (docs.drop s).take l)

/-- The sort key as the specification words it: one entry per entry of `order`, in the
same sequence, mapping `columns[column].data` to `1` when `dir` is `"asc"` and to `-1`
otherwise. -/
def sortKeySpec (columns : List Column) (order : List ColumnOrder) : List (String × Int) :=
  order.filterMap (fun o =>
    (columnAt columns o.column).map
      (fun col => (toStr col.data, if o.dir = .str "asc" then 1 else -1)))

/-- The clause the reducer of `searchFilter` gives a field, by the declared type
`dataTypeMap[field]` and the inferred kind of the term; `none` when it gives none. -/
def clauseOf (dataType : Option String) (searchValue : Cond) (value : JSVal)
    (searchValueDataType : String) : Option Cond :=
  if dataType = some "String" then some searchValue
  else if dataType = some "Number" && searchValueDataType = "number" then some (.eq value)
  else if dataType = some "Date" && searchValueDataType = "date" then some (.gteDate value)
  else none

/-- The match value as the specification words it: the case-insensitive regular expression
compiled from the term when the `regex` flag is true, the literal term otherwise. -/
def matchValueSpec (regex value : JSVal) : Cond :=
  if toBoolean regex then .regExp (toStr value) "ig" else .eq value

/-- The AND group as the specification words it: in column order, one clause per column
with a non-empty `search.value`, on that column's `data`. -/
def andGroupSpec (columns : List Column) : List (String × Cond) :=
  (columns.filter (fun col => toBoolean (Search.valueOf col.search))).map
    (fun col => (toStr col.data,
      matchValueSpec (Search.regexOf col.search) (Search.valueOf col.search)))

/-- The distinct names of a list, in the order of their first occurrences. -/
def firstOccurrences : List String → List String
  | [] => []
  | k :: ks => k :: (firstOccurrences ks).filter (fun k' => k' != k)

/-- Whether the pattern starts the subject, comparing characters with `eqc`. -/
def matchesAt (eqc : Char → Char → Bool) : List Char → List Char → Bool
  | [], _ => true
  | _ :: _, [] => false
  | p :: ps, c :: cs => eqc p c && matchesAt eqc ps cs

/-- Whether the pattern occurs somewhere in the subject. -/
def occursIn (eqc : Char → Char → Bool) (pattern : List Char) : List Char → Bool
  | [] => matchesAt eqc pattern []
  | c :: cs => matchesAt eqc pattern (c :: cs) || occursIn eqc pattern cs

/-- What a regular expression whose pattern is letters and digits only matches: such a
pattern has no metacharacter, so it matches a string exactly when it occurs in it, ignoring
case under the flag `i`. Other patterns are given no reading (`none`). -/
def regExpTestLiteral (pattern flags subject : String) : Option Bool :=
  if pattern.toList.all Char.isAlphanum then
    some (occursIn
      (fun p c => if flags.toList.contains 'i' then p.toUpper == c.toUpper else p == c)
      pattern.toList subject.toList)
  else none

/-! ## Data for worked examples -/

/-- A runtime for the worked examples: exact on patterns of letters and digits, which
every engine accepts, on the pattern `+5`, which every engine rejects (a quantifier with
nothing to repeat), and on the JSON texts `true` and `false`; it rejects everything
else. -/
def exampleRuntime : Runtime where
  regExpOk := fun p => p.toList.all Char.isAlphanum
  jsonParseTruthy := fun t =>
    if t = "true" then .ok true else if t = "false" then .ok false else .error .syntaxError

/-- Twenty documents, numbered from 0. -/
def exampleDocs : List Doc :=
  (List.range 20).map (fun i => [("n", JSVal.num i)])

/-- The window `skip` and `limit` cut out of a result, for the example model. -/
def exampleWindow (skip limit : Option JSVal) (docs : List Doc) : List Doc :=
  let rest := match skip with
    | some (.num s) => docs.drop s.toNat
    | _ => docs
  match limit with
  | some (.num l) => if 0 < l then rest.take l.toNat else rest
  | _ => rest

/-- A model for the worked examples: five schema paths, and a collection of twenty
documents that every predicate matches, returned in stored order. -/
def exampleModel : Model where
  schemaPaths := [("name", "String"), ("email", "String"), ("status", "String"),
    ("age", "Number"), ("created", "Date")]
  exec := fun q => .ok (exampleWindow q.skip q.limit exampleDocs)
  countDocuments := fun _ => .ok exampleDocs.length

/-- A request with a general search for `ann` as a regular expression over the column
`name`. -/
def annRequest : QueryOptions :=
  { draw := .num 3, search := some { value := .str "ann", regex := .bool true },
    columns := some [{ data := .str "name", searchable := .str "true" }] }

/-- A request whose general search is empty and whose columns carry no search term. -/
def emptySearchRequest : QueryOptions :=
  { draw := .num 1, start := .num 0, length := .num 10,
    search := some { value := .str "", regex := .bool false },
    order := some [],
    columns := some [{ data := .str "name", searchable := .str "true",
                       search := some { value := .str "", regex := .bool false } },
                     { data := .str "age", searchable := .str "true" }],
    find := some [("age", .other 0), ("status", .eq (.str "new"))] }

/-- The query built for `emptySearchRequest` with the additional predicate
`{ status: "active" }`. -/
def emptySearchQuery : Query :=
  { conditions := [("age", .other 0), ("status", .eq (.str "active"))],
    populate := some [], sort := some [("_id", -1)],
    skip := some (.num 0), limit := some (.num 10) }

/-- A request for the page of 5 rows at offset 10. -/
def pageRequest : QueryOptions := { draw := .num 2, start := .num 10, length := .num 5 }

/-- The query built for `pageRequest`. -/
def pageQuery : Query :=
  { conditions := [], populate := some [], sort := some [("_id", -1)],
    skip := some (.num 10), limit := some (.num 5) }

/-- The response to `pageRequest` from the example model: documents 10 to 14. -/
def pageResponse : Response :=
  { draw := .num 2, recordsTotal := 20, recordsFiltered := 20,
    data := [[("n", .num 10)], [("n", .num 11)], [("n", .num 12)], [("n", .num 13)],
      [("n", .num 14)]] }

/-- A request whose `start` is the integer `10^21`. -/
def bigStartRequest : QueryOptions := { draw := .num 2, start := .num (10 ^ 21), length := .num 5 }

/-- The query built for `bigStartRequest`. -/
def bigStartQuery : Query :=
  { conditions := [], populate := some [], sort := some [("_id", -1)],
    skip := some (.num 1), limit := some (.num 5) }

/-- The request of the specification's sorting example: `order` names column 1 descending,
then column 0 ascending, over the columns `a` and `b`. -/
def twoKeyRequest : QueryOptions :=
  { order := some [{ column := 1, dir := .str "desc" }, { column := 0, dir := .str "asc" }],
    columns := some [{ data := .str "a", searchable := .str "true" },
                     { data := .str "b", searchable := .str "true" }] }

/-- The query built for `twoKeyRequest`. -/
def twoKeyQuery : Query :=
  { conditions := [], populate := some [], sort := some [("b", -1), ("a", 1)],
    skip := some (.num 0), limit := some (.num 0) }

/-- The request of the specification's example: a general search for `X` over the string
columns `name` and `email`, and a column filter `active` on `status`. -/
def activeRequest : QueryOptions :=
  { search := some { value := .str "X", regex := .bool false },
    columns := some [{ data := .str "name", searchable := .str "true" },
                     { data := .str "email", searchable := .str "true" },
                     { data := .str "status", searchable := .str "false",
                       search := some { value := .str "active", regex := .bool false } }] }

/-- The query built for `activeRequest`. -/
def activeQuery : Query :=
  { conditions := [], populate := some [],
    or := some [("name", .eq (.str "X")), ("email", .eq (.str "X"))],
    and := some [("status", .eq (.str "active"))],
    sort := some [("_id", -1)], skip := some (.num 0), limit := some (.num 0) }

/-- A reading of conditions for the worked examples: a literal condition holds when the
document has that value in the field; no other condition holds. -/
def satLiteral (field : String) (c : Cond) (d : Doc) : Bool :=
  match c with
  | .eq v => Obj.get? d field == some v
  | _ => false

/-- A document that `activeQuery` matches. -/
def activeDoc : Doc :=
  [("name", .str "X"), ("email", .str "x@example.org"), ("status", .str "active")]

/-- A request with the general search `30` as a regular expression over the numeric column
`age`. -/
def ageRequest : QueryOptions :=
  { search := some { value := .str "30", regex := .bool true },
    columns := some [{ data := .str "age", searchable := .str "true" }] }

/-- The query built for `ageRequest`. -/
def ageQuery : Query :=
  { conditions := [], populate := some [], or := some [("age", .eq (.str "30"))],
    sort := some [("_id", -1)], skip := some (.num 0), limit := some (.num 0) }

/-- The same request without any search. -/
def plainRequest : QueryOptions := { draw := .num 3 }

/-- The response to `annRequest` from the example model. -/
def annResponse : Response :=
  { draw := .num 3, recordsTotal := 20, recordsFiltered := 20, data := exampleDocs }

/-- A reading of conditions for the worked examples: a literal condition holds when the
document has that value in the field, a regular expression of letters and digits when the
field is a string it matches; no other condition holds. -/
def satExample (field : String) (c : Cond) (d : Doc) : Bool :=
  match c with
  | .eq v => Obj.get? d field == some v
  | .regExp p f =>
    (match Obj.get? d field with
     | some (.str s) => regExpTestLiteral p f s == some true
     | _ => false)
  | _ => false

/-- The query built for `annRequest`. -/
def annQuery : Query :=
  { conditions := [], populate := some [], or := some [("name", .regExp "ann" "ig")],
    sort := some [("_id", -1)], skip := some (.num 0), limit := some (.num 0) }

/-- A request with the general search `abc`, which is not a number, over the string column
`name` and the numeric column `age`. -/
def abcRequest : QueryOptions :=
  { search := some { value := .str "abc", regex := .bool false },
    columns := some [{ data := .str "name", searchable := .str "true" },
                     { data := .str "age", searchable := .str "true" }] }

/-- The query built for `abcRequest`. -/
def abcQuery : Query :=
  { conditions := [], populate := some [], or := some [("name", .eq (.str "abc"))],
    sort := some [("_id", -1)], skip := some (.num 0), limit := some (.num 0) }

/-- A request with the general search `abc` over the numeric column `age` alone. -/
def wordOnNumberRequest : QueryOptions :=
  { search := some { value := .str "abc", regex := .bool false },
    columns := some [{ data := .str "age", searchable := .str "true" }] }

/-- The query built for `wordOnNumberRequest`: `.or` was called with an empty list. -/
def wordOnNumberQuery : Query :=
  { conditions := [], populate := some [], or := some [],
    sort := some [("_id", -1)], skip := some (.num 0), limit := some (.num 0) }

/-- A request with the general search `2024` over the string column `name` and the date
column `created`. -/
def yearRequest : QueryOptions :=
  { search := some { value := .str "2024", regex := .bool false },
    columns := some [{ data := .str "name", searchable := .str "true" },
                     { data := .str "created", searchable := .str "true" }] }

/-- The query built for `yearRequest`. -/
def yearQuery : Query :=
  { conditions := [], populate := some [], or := some [("name", .eq (.str "2024"))],
    sort := some [("_id", -1)], skip := some (.num 0), limit := some (.num 0) }

/-- A request whose `order` names the field `a` twice: ascending first, descending last,
with `b` in between. -/
def repeatRequest : QueryOptions :=
  { order := some [{ column := 0, dir := .str "asc" }, { column := 1, dir := .str "asc" },
                   { column := 0, dir := .str "desc" }],
    columns := some [{ data := .str "a", searchable := .str "true" },
                     { data := .str "b", searchable := .str "true" }] }

/-- The query built for `repeatRequest`. -/
def repeatQuery : Query :=
  { conditions := [], populate := some [], sort := some [("a", -1), ("b", 1)],
    skip := some (.num 0), limit := some (.num 0) }

/-- A request with the general search `+5`, which is a number and is not a valid pattern,
as a regular expression over the numeric column `age`. -/
def plusFiveRequest : QueryOptions :=
  { search := some { value := .str "+5", regex := .bool true },
    columns := some [{ data := .str "age", searchable := .str "true" }] }

/-- A request with the general search `2024-01-01` over the date column `created`. -/
def dateRequest : QueryOptions :=
  { search := some { value := .str "2024-01-01", regex := .bool false },
    columns := some [{ data := .str "created", searchable := .str "true" }] }

/-- The query built for `dateRequest`: `.or` was called with an empty list. -/
def dateQuery : Query :=
  { conditions := [], populate := some [], or := some [],
    sort := some [("_id", -1)], skip := some (.num 0), limit := some (.num 0) }

/-! ## Lemmas on objects -/

namespace Obj

variable {α : Type}

theorem get?_nil (k : String) : get? ([] : Obj α) k = none := rfl

theorem get?_cons (k' : String) (v : α) (r : Obj α) (k : String) :
    get? ((k', v) :: r) k = (get? r k).orElse (fun _ => if k' = k then some v else none) := by
  simp only [get?]
  cases get? r k <;> rfl

theorem get?_append (o p : Obj α) (k : String) :
    get? (o ++ p) k = (get? p k).orElse (fun _ => get? o k) := by
  induction o with
  | nil => cases h : get? p k <;> simp [get?_nil, h]
  | cons e r ih =>
    obtain ⟨k', v⟩ := e
    rw [List.cons_append, get?_cons, ih, get?_cons]
    cases get? p k <;> simp

theorem has_eq_isSome (o : Obj α) (k : String) : has o k = (get? o k).isSome := by
  induction o with
  | nil => rfl
  | cons e r ih =>
    obtain ⟨k', v⟩ := e
    rw [get?_cons]
    simp only [has, List.any_cons] at ih ⊢
    rw [ih]
    cases get? r k <;> by_cases h : k' = k <;> simp [h]

theorem mem_keys_iff (o : Obj α) (k : String) : k ∈ keys o ↔ get? o k ≠ none := by
  have h := has_eq_isSome o k
  simp only [has, keys] at *
  constructor
  · intro hk
    have : (o.any fun e => e.1 == k) = true := by
      simp only [List.mem_map] at hk
      obtain ⟨e, he, rfl⟩ := hk
      exact List.any_eq_true.mpr ⟨e, he, by simp⟩
    rw [h] at this
    intro hn
    simp [hn] at this
  · intro hk
    have : (get? o k).isSome = true := by
      cases hg : get? o k with
      | none => exact absurd hg hk
      | some _ => rfl
    rw [← h] at this
    obtain ⟨e, he, hek⟩ := List.any_eq_true.mp this
    exact List.mem_map.mpr ⟨e, he, by simpa using hek⟩

theorem get?_replace (o : Obj α) (k : String) (v : α) (k' : String) :
    get? (replace o k v) k' =
      if k' = k then (get? o k).map (fun _ => v) else get? o k' := by
  induction o with
  | nil => simp [replace, get?_nil]
  | cons e r ih =>
    obtain ⟨k1, v1⟩ := e
    have hr : replace ((k1, v1) :: r) k v
        = (if k1 = k then (k, v) else (k1, v1)) :: replace r k v := by
      simp [replace]
    rw [hr]
    by_cases h1 : k1 = k
    · subst h1
      simp only [if_true]
      rw [get?_cons, ih, get?_cons]
      by_cases h2 : k' = k1
      · subst h2
        cases get? r k' <;> simp
      · have h3 : ¬ k1 = k' := fun h => h2 h.symm
        simp [h2, h3, get?_cons]
    · simp only [if_neg h1]
      rw [get?_cons, ih, get?_cons]
      by_cases h2 : k' = k
      · subst h2
        cases get? r k' <;> simp [h1]
      · simp [h2, get?_cons]

theorem get?_insertIndex (o : Obj α) (i : Nat) (k : String) (v : α) (k' : String)
    (hk : has o k = false) :
    get? (insertIndex o i k v) k' = if k' = k then some v else get? o k' := by
  induction o with
  | nil =>
    simp only [insertIndex, get?_cons, get?_nil]
    by_cases h : k' = k
    · subst h; simp
    · have : ¬ k = k' := fun h3 => h h3.symm
      simp [h, this]
  | cons e r ih =>
    obtain ⟨k1, v1⟩ := e
    have hk1 : (k1 == k) = false ∧ has r k = false := by
      simpa [has] using hk
    have hne : ¬ k1 = k := by simpa using hk1.1
    have hgk : get? ((k1, v1) :: r) k = none := by
      have := has_eq_isSome ((k1, v1) :: r) k
      rw [hk] at this
      cases hg : get? ((k1, v1) :: r) k with
      | none => rfl
      | some _ => rw [hg] at this; simp at this
    have hfront : get? ((k, v) :: (k1, v1) :: r) k'
        = if k' = k then some v else get? ((k1, v1) :: r) k' := by
      rw [get?_cons]
      by_cases h : k' = k
      · subst h; rw [hgk]; simp
      · have : ¬ k = k' := fun h3 => h h3.symm
        simp only [if_neg h, if_neg this]
        cases get? ((k1, v1) :: r) k' <;> rfl
    simp only [insertIndex]
    split
    · split
      · rw [get?_cons, ih hk1.2, get?_cons]
        by_cases h : k' = k
        · subst h; simp
        · simp [h]
      · exact hfront
    · exact hfront

theorem get?_define (o : Obj α) (k : String) (v : α) (k' : String) :
    get? (define o k v) k' = if k' = k then some v else get? o k' := by
  unfold define
  by_cases hh : has o k = true
  · rw [if_pos hh, get?_replace]
    rw [has_eq_isSome] at hh
    by_cases h : k' = k
    · subst h
      cases hg : get? o k' with
      | none => rw [hg] at hh; simp at hh
      | some w => simp
    · simp [h]
  · have hf : has o k = false := by simpa using hh
    rw [if_neg hh]
    split
    · exact get?_insertIndex o _ k v k' hf
    · rw [get?_append, get?_cons, get?_nil]
      by_cases h : k' = k
      · subst h; simp
      · have : ¬ k = k' := fun h3 => h h3.symm
        simp [h, this]

theorem get?_set (o : Obj α) (k : String) (v : α) (k' : String) (hk : k ≠ "__proto__") :
    get? (set o k v) k' = if k' = k then some v else get? o k' := by
  unfold set
  rw [if_neg hk, get?_define]

theorem get?_set_of_ne (o : Obj α) (k : String) (v : α) (k' : String) (hk : k' ≠ k) :
    get? (set o k v) k' = get? o k' := by
  unfold set
  split
  · rfl
  · rw [get?_define, if_neg hk]

theorem get?_spread (t s : Obj α) (k : String) :
    get? (spread t s) k = (get? s k).orElse (fun _ => get? t k) := by
  induction s generalizing t with
  | nil => simp [spread, get?_nil]
  | cons e r ih =>
    obtain ⟨k1, v1⟩ := e
    have : spread t ((k1, v1) :: r) = spread (define t k1 v1) r := by
      simp [spread]
    rw [this, ih, get?_define, get?_cons]
    cases get? r k with
    | some w => simp
    | none =>
      by_cases h : k = k1
      · subst h; simp
      · have : ¬ k1 = k := fun h3 => h h3.symm
        simp [h, this]

end Obj

/-! ## The response -/

theorem exports_ok_iff (rt : Runtime) (m : Model) (q : QueryOptions)
    (a : Option (Obj Cond)) (r : Response) :
    exports rt m q a = .ok r ↔
      ∃ query records totalRecords,
        buildQuery rt m q a = .ok query ∧ m.exec query = .ok records ∧
        m.countDocuments (findQuery (q.find.getD []) a) = .ok totalRecords ∧
        r = { draw := orDefault q.draw (.num 0), recordsTotal := totalRecords,
              recordsFiltered := totalRecords, data := records } := by
  constructor
  · intro h
    unfold exports at h
    split at h
    · cases h
    · rename_i query hb
      split at h
      · cases h
      · rename_i records he
        simp only at h
        split at h
        · cases h
        · rename_i n hc
          exact ⟨query, records, n, hb, he, hc, (Except.ok.inj h).symm⟩
  · rintro ⟨query, records, n, hb, he, hc, hr⟩
    unfold exports
    simp only [hb, he, hc, hr]

/-- C1: whenever the call completes, the response has `recordsFiltered` equal to
`recordsTotal`. -/
theorem exports_recordsFiltered_eq_recordsTotal (rt : Runtime) (m : Model) (q : QueryOptions)
    (a : Option (Obj Cond)) (r : Response) (h : exports rt m q a = .ok r) :
    r.recordsFiltered = r.recordsTotal := by
  obtain ⟨_, _, _, _, _, _, hr⟩ := (exports_ok_iff rt m q a r).mp h
  rw [hr]

theorem exports_recordsFiltered_eq_recordsTotal_witness :
    exports exampleRuntime exampleModel annRequest (some [("status", .eq (.str "active"))])
      = .ok annResponse
    ∧ annResponse.recordsFiltered = annResponse.recordsTotal :=
  ⟨rfl, exports_recordsFiltered_eq_recordsTotal exampleRuntime exampleModel annRequest
    (some [("status", .eq (.str "active"))]) annResponse rfl⟩

/-- C2: the `draw` of the response is the `draw` of the request, and is `0` when the
request has no `draw` (the field reads `undefined`). -/
theorem exports_draw_echo (rt : Runtime) (m : Model) (q : QueryOptions)
    (a : Option (Obj Cond)) (r : Response) (h : exports rt m q a = .ok r) :
    r.draw = if q.draw = .undefined then .num 0 else q.draw := by
  obtain ⟨_, _, _, _, _, _, hr⟩ := (exports_ok_iff rt m q a r).mp h
  rw [hr]
  cases hq : q.draw <;> simp [orDefault]

theorem exports_draw_echo_witness :
    exports exampleRuntime exampleModel annRequest none = .ok annResponse
    ∧ annResponse.draw = if annRequest.draw = .undefined then .num 0 else annRequest.draw :=
  ⟨rfl, exports_draw_echo exampleRuntime exampleModel annRequest none annResponse rfl⟩

/-- C3: the count that becomes `recordsTotal` is taken at the merged base predicate of
`find` and `additionalQueryOptions`, whatever the model; so a second request with the same
`find`, differing in its general search and column searches, gets the same
`recordsTotal`. -/
theorem exports_count_uses_base_predicate (rt : Runtime) (m : Model) (q q' : QueryOptions)
    (a : Option (Obj Cond)) (r r' : Response) (h : exports rt m q a = .ok r)
    (hfind : q'.find = q.find) (h' : exports rt m q' a = .ok r') :
    m.countDocuments (Obj.spread (Obj.spread [] (q.find.getD [])) (a.getD [])) = .ok r.recordsTotal
    ∧ r'.recordsTotal = r.recordsTotal := by
  obtain ⟨_, _, n, _, _, hc, hr⟩ := (exports_ok_iff rt m q a r).mp h
  obtain ⟨_, _, n', _, _, hc', hr'⟩ := (exports_ok_iff rt m q' a r').mp h'
  constructor
  · rw [hr]
    exact hc
  · rw [hfind, hc] at hc'
    cases hc'
    rw [hr, hr']

theorem exports_count_uses_base_predicate_witness :
    exports exampleRuntime exampleModel annRequest (some [("status", .eq (.str "active"))])
      = .ok annResponse
    ∧ plainRequest.find = annRequest.find
    ∧ exports exampleRuntime exampleModel plainRequest (some [("status", .eq (.str "active"))])
      = .ok annResponse
    ∧ exampleModel.countDocuments
        (Obj.spread (Obj.spread [] (annRequest.find.getD []))
          ((some [("status", Cond.eq (.str "active"))]).getD []))
      = .ok annResponse.recordsTotal
    ∧ annResponse.recordsTotal = annResponse.recordsTotal :=
  ⟨rfl, rfl, rfl, exports_count_uses_base_predicate exampleRuntime exampleModel annRequest
    plainRequest (some [("status", .eq (.str "active"))]) annResponse annResponse rfl rfl rfl⟩

/-- C4: the base predicate is the shallow merge of `find` and `additionalQueryOptions`: a
key of `additionalQueryOptions` has its value there, any other key of `find` has its value
in `find`, and there are no other keys. -/
theorem findQuery_shallow_merge (find : Obj Cond) (additionalQueryOptions : Option (Obj Cond))
    (k : String) :
    Obj.get? (findQuery find additionalQueryOptions) k =
      (match Obj.get? (additionalQueryOptions.getD []) k with
       | some v => some v
       | none => Obj.get? find k)
    ∧ (k ∈ Obj.keys (findQuery find additionalQueryOptions) ↔
        k ∈ Obj.keys (additionalQueryOptions.getD []) ∨ k ∈ Obj.keys find) := by
  have hget : Obj.get? (findQuery find additionalQueryOptions) k =
      (match Obj.get? (additionalQueryOptions.getD []) k with
       | some v => some v
       | none => Obj.get? find k) := by
    unfold findQuery
    rw [Obj.get?_spread, Obj.get?_spread, Obj.get?_nil]
    cases Obj.get? (additionalQueryOptions.getD []) k with
    | some v => rfl
    | none => cases Obj.get? find k <;> rfl
  refine ⟨hget, ?_⟩
  rw [Obj.mem_keys_iff, Obj.mem_keys_iff, Obj.mem_keys_iff, hget]
  cases Obj.get? (additionalQueryOptions.getD []) k <;> simp

/-! ## The query -/

theorem buildQuery_ok_iff (rt : Runtime) (m : Model) (q : QueryOptions)
    (a : Option (Obj Cond)) (qry : Query) :
    buildQuery rt m q a = .ok qry ↔
      ∃ q1 q2 q3,
        generalSearch rt m q.search (q.columns.getD [])
          { conditions := findQuery (q.find.getD []) a,
            populate := some (q.populate.getD []) } = .ok q1 ∧
        columnFilter rt (q.columns.getD []) q1 = .ok q2 ∧
        sorting (q.order.getD []) (q.columns.getD []) q2 = .ok q3 ∧
        qry = { q3 with skip := some (parseInt (orDefault q.start (.num 0))),
                        limit := some (parseInt (orDefault q.length (.num 0))) } := by
  constructor
  · intro h
    unfold buildQuery at h
    simp only at h
    split at h
    · cases h
    · rename_i q1 h1
      split at h
      · cases h
      · rename_i q2 h2
        split at h
        · cases h
        · rename_i q3 h3
          exact ⟨q1, q2, q3, h1, h2, h3, (Except.ok.inj h).symm⟩
  · rintro ⟨q1, q2, q3, h1, h2, h3, hq⟩
    unfold buildQuery
    simp only [h1, h2, h3, hq]

theorem generalSearch_of_falsy (rt : Runtime) (m : Model) (search : Option Search)
    (columns : List Column) (query : Query)
    (hs : toBoolean (Search.valueOf search) = false) :
    generalSearch rt m search columns query = .ok query := by
  unfold generalSearch
  simp [hs]

theorem columnSearch_eq_nil (columns : List Column)
    (hc : ∀ col ∈ columns, toBoolean (Search.valueOf col.search) = false) :
    columnSearch columns = [] := by
  unfold columnSearch
  rw [List.filter_eq_nil_iff]
  intro col hcol
  simp [hc col hcol]

theorem columnFilter_of_no_search (rt : Runtime) (columns : List Column) (query : Query)
    (hc : ∀ col ∈ columns, toBoolean (Search.valueOf col.search) = false) :
    columnFilter rt columns query = .ok query := by
  unfold columnFilter
  simp [columnSearch_eq_nil columns hc]

theorem sorting_ok (order : List ColumnOrder) (columns : List Column) (query q3 : Query)
    (h : sorting order columns query = .ok q3) :
    q3 = { query with sort := q3.sort } := by
  unfold sorting at h
  split at h
  · split at h
    · cases h
    · cases h; rfl
  · cases h; rfl

/-- C5: when `search.value` is empty or absent and no column has a non-empty
`search.value`, the general search and the column filter leave the query as it is, so the
query that is run has the merged base predicate as its conditions and neither an OR group
nor an AND group. -/
theorem buildQuery_without_search (rt : Runtime) (m : Model) (q : QueryOptions)
    (a : Option (Obj Cond)) (qry query0 : Query)
    (hs : toBoolean (Search.valueOf q.search) = false)
    (hc : ∀ col ∈ q.columns.getD [], toBoolean (Search.valueOf col.search) = false)
    (h : buildQuery rt m q a = .ok qry) :
    generalSearch rt m q.search (q.columns.getD []) query0 = .ok query0
    ∧ columnFilter rt (q.columns.getD []) query0 = .ok query0
    ∧ qry.conditions = Obj.spread (Obj.spread [] (q.find.getD [])) (a.getD [])
    ∧ qry.or = none ∧ qry.and = none := by
  refine ⟨generalSearch_of_falsy rt m _ _ _ hs, columnFilter_of_no_search rt _ _ hc, ?_⟩
  obtain ⟨q1, q2, q3, h1, h2, h3, hq⟩ := (buildQuery_ok_iff rt m q a qry).mp h
  rw [generalSearch_of_falsy rt m _ _ _ hs] at h1
  rw [columnFilter_of_no_search rt _ _ hc] at h2
  cases h1
  cases h2
  have h4 := sorting_ok _ _ _ _ h3
  rw [hq, h4]
  exact ⟨rfl, rfl, rfl⟩

theorem buildQuery_without_search_witness :
    toBoolean (Search.valueOf emptySearchRequest.search) = false
    ∧ (∀ col ∈ emptySearchRequest.columns.getD [],
        toBoolean (Search.valueOf col.search) = false)
    ∧ buildQuery exampleRuntime exampleModel emptySearchRequest
        (some [("status", .eq (.str "active"))]) = .ok emptySearchQuery
    ∧ generalSearch exampleRuntime exampleModel emptySearchRequest.search
        (emptySearchRequest.columns.getD []) emptySearchQuery = .ok emptySearchQuery
    ∧ columnFilter exampleRuntime (emptySearchRequest.columns.getD []) emptySearchQuery
        = .ok emptySearchQuery
    ∧ emptySearchQuery.conditions
        = Obj.spread (Obj.spread [] (emptySearchRequest.find.getD []))
            ((some [("status", Cond.eq (.str "active"))]).getD [])
    ∧ emptySearchQuery.or = none ∧ emptySearchQuery.and = none :=
  ⟨rfl, by decide, rfl,
    buildQuery_without_search exampleRuntime exampleModel emptySearchRequest
      (some [("status", .eq (.str "active"))]) emptySearchQuery emptySearchQuery rfl
      (by decide) rfl⟩

/-- C7: when `order` is empty or absent, the sort given to the Store is descending on
`_id` and nothing else. -/
theorem buildQuery_default_sort (rt : Runtime) (m : Model) (q : QueryOptions)
    (a : Option (Obj Cond)) (qry query0 : Query)
    (ho : q.order = none ∨ q.order = some [])
    (h : buildQuery rt m q a = .ok qry) :
    sorting (q.order.getD []) (q.columns.getD []) query0
      = .ok { query0 with sort := some [("_id", -1)] }
    ∧ qry.sort = some [("_id", -1)] := by
  have hnil : q.order.getD [] = [] := by
    rcases ho with ho | ho <;> simp [ho]
  obtain ⟨q1, q2, q3, h1, h2, h3, hq⟩ := (buildQuery_ok_iff rt m q a qry).mp h
  rw [hnil] at h3 ⊢
  constructor
  · simp [sorting]
  · simp only [sorting, List.length_nil, bne_self_eq_false, Bool.false_eq_true, if_false] at h3
    cases h3
    rw [hq]

theorem buildQuery_default_sort_witness :
    (emptySearchRequest.order = none ∨ emptySearchRequest.order = some [])
    ∧ buildQuery exampleRuntime exampleModel emptySearchRequest
        (some [("status", .eq (.str "active"))]) = .ok emptySearchQuery
    ∧ sorting (emptySearchRequest.order.getD []) (emptySearchRequest.columns.getD [])
        emptySearchQuery = .ok { emptySearchQuery with sort := some [("_id", -1)] }
    ∧ emptySearchQuery.sort = some [("_id", -1)] :=
  ⟨Or.inr rfl, rfl,
    buildQuery_default_sort exampleRuntime exampleModel emptySearchRequest
      (some [("status", .eq (.str "active"))]) emptySearchQuery emptySearchQuery
      (Or.inr rfl) rfl⟩

/-! ## Decimal digits and `parseInt` -/

/-- A character that is one of the ten decimal digits. -/
theorem digitChar_props (d : Nat) (hd : d < 10) :
    digitVal (digitChar d) = some d ∧ isRadixDigit 10 (digitChar d) = true
    ∧ isStrWhiteSpaceChar (digitChar d) = false ∧ digitChar d ≠ '-' ∧ digitChar d ≠ '+'
    ∧ digitChar d ≠ 'x' ∧ digitChar d ≠ 'X' := by
  interval_cases d <;> decide

theorem natDigitsAux_acc (fuel n : Nat) (acc : List Char) :
    natDigitsAux fuel n acc = natDigitsAux fuel n [] ++ acc := by
  induction fuel generalizing n acc with
  | zero => simp [natDigitsAux]
  | succ f ih =>
    simp only [natDigitsAux]
    split
    · simp
    · rw [ih (n / 10) (digitChar (n % 10) :: acc), ih (n / 10) [digitChar (n % 10)]]
      simp

theorem natDigitsAux_spec (fuel n : Nat) (h : n < fuel) :
    natDigitsAux fuel n [] ≠ []
    ∧ (∀ c ∈ natDigitsAux fuel n [], ∃ d, d < 10 ∧ c = digitChar d)
    ∧ ofDigitChars 10 (natDigitsAux fuel n []) = n := by
  induction fuel generalizing n with
  | zero => omega
  | succ f ih =>
    have hd : n % 10 < 10 := Nat.mod_lt _ (by norm_num)
    simp only [natDigitsAux]
    split
    · rename_i h0
      refine ⟨by simp, ?_, ?_⟩
      · intro c hc
        simp only [List.mem_singleton] at hc
        exact ⟨n % 10, hd, hc⟩
      · simp only [ofDigitChars, List.foldl_cons, List.foldl_nil, (digitChar_props _ hd).1]
        simp only [Option.getD_some]
        omega
    · rename_i h0
      have hlt : n / 10 < f := by omega
      obtain ⟨h1, h2, h3⟩ := ih (n / 10) hlt
      rw [natDigitsAux_acc]
      refine ⟨by simp, ?_, ?_⟩
      · intro c hc
        rw [List.mem_append] at hc
        rcases hc with hc | hc
        · exact h2 c hc
        · simp only [List.mem_singleton] at hc
          exact ⟨n % 10, hd, hc⟩
      · unfold ofDigitChars at h3 ⊢
        rw [List.foldl_append, h3]
        simp only [List.foldl_cons, List.foldl_nil, (digitChar_props _ hd).1, Option.getD_some]
        omega

theorem natDigits_spec (n : Nat) :
    natDigits n ≠ []
    ∧ (∀ c ∈ natDigits n, ∃ d, d < 10 ∧ c = digitChar d)
    ∧ ofDigitChars 10 (natDigits n) = n :=
  natDigitsAux_spec (n + 1) n (Nat.lt_succ_self n)

/-- What `parseInt` reads off a run of decimal digits, with or without a minus sign. -/
theorem parseInt_digits (v : JSVal) (neg : Bool) (ds : List Char) (hne : ds ≠ [])
    (hds : ∀ c ∈ ds, ∃ d, d < 10 ∧ c = digitChar d)
    (hv : (toStr v).toList = if neg then '-' :: ds else ds) :
    parseInt v = if neg then .num (-(ofDigitChars 10 ds : Int)) else .num (ofDigitChars 10 ds) := by
  obtain ⟨c, t, rfl⟩ := List.exists_cons_of_ne_nil hne
  obtain ⟨d, hd, hc⟩ := hds c (List.mem_cons_self _ _)
  obtain ⟨-, hrc, hwc, hm, hp, hx, hX⟩ := digitChar_props d hd
  rw [← hc] at hrc hwc hm hp hx hX
  have hall : (c :: t).takeWhile (isRadixDigit 10) = c :: t := by
    rw [List.takeWhile_eq_self_iff]
    intro x hx'
    obtain ⟨e, he, rfl⟩ := hds x hx'
    exact (digitChar_props e he).2.1
  have hsecond : ∀ y r, t = y :: r → y ≠ 'x' ∧ y ≠ 'X' := by
    intro y r ht
    obtain ⟨e, he, rfl⟩ := hds y (by rw [ht]; simp)
    exact ⟨(digitChar_props e he).2.2.2.2.2.1, (digitChar_props e he).2.2.2.2.2.2⟩
  have hradix : (match c :: t with
      | '0' :: 'x' :: _ => 16
      | '0' :: 'X' :: _ => 16
      | _ => 10) = 10 := by
    split
    · rename_i r heq
      simp only [List.cons.injEq] at heq
      exact absurd rfl (hsecond _ _ heq.2).1
    · rename_i r heq
      simp only [List.cons.injEq] at heq
      exact absurd rfl (hsecond _ _ heq.2).2
    · rfl
  have hrest : (match c :: t with
      | '0' :: 'x' :: r => r
      | '0' :: 'X' :: r => r
      | r => r) = c :: t := by
    split
    · rename_i r heq
      simp only [List.cons.injEq] at heq
      exact absurd rfl (hsecond _ _ heq.2).1
    · rename_i r heq
      simp only [List.cons.injEq] at heq
      exact absurd rfl (hsecond _ _ heq.2).2
    · rfl
  cases neg with
  | true =>
    simp only [if_true] at hv ⊢
    unfold parseInt
    simp only [hv]
    have hdw : ('-' :: c :: t).dropWhile isStrWhiteSpaceChar = '-' :: c :: t := by
      rw [List.dropWhile_cons_of_neg]
      decide
    simp only [hdw, hradix, hrest, hall]
    simp
  | false =>
    simp only [Bool.false_eq_true, if_false] at hv ⊢
    unfold parseInt
    simp only [hv]
    have hdw : (c :: t).dropWhile isStrWhiteSpaceChar = c :: t := by
      rw [List.dropWhile_cons_of_neg]
      simp [hwc]
    have hneg : (match c :: t with
        | '-' :: _ => true
        | _ => false) = false := by
      split
      · rename_i heq
        simp only [List.cons.injEq] at heq
        exact absurd heq.1 hm
      · rfl
    have hsign : (match c :: t with
        | '-' :: r => r
        | '+' :: r => r
        | r => r) = c :: t := by
      split
      · rename_i heq
        simp only [List.cons.injEq] at heq
        exact absurd heq.1 hm
      · rename_i heq
        simp only [List.cons.injEq] at heq
        exact absurd heq.1 hp
      · rfl
    simp only [hdw, hneg, hsign, hradix, hrest, hall]
    simp

/-- The function `parseInt` returns an integer-valued number below `10^21` in magnitude as
it is. -/
theorem parseInt_num (n : Int) (hb : n.natAbs < 10 ^ 21) : parseInt (.num n) = .num n := by
  obtain ⟨h1, h2, h3⟩ := natDigits_spec n.natAbs
  by_cases hn : n < 0
  · have := parseInt_digits (.num n) true (natDigits n.natAbs) h1 h2
      (by simp only [toStr, numToStr, hn, if_pos hb]; simp)
    rw [this, h3]
    simp only [if_true, JSVal.num.injEq]
    omega
  · have := parseInt_digits (.num n) false (natDigits n.natAbs) h1 h2
      (by simp only [toStr, numToStr, hn, if_pos hb]; simp)
    rw [this, h3]
    simp only [Bool.false_eq_true, if_false, JSVal.num.injEq]
    omega

theorem exampleModel_paginates : exampleModel.Paginates := by
  intro q s l hl
  have hl' : (0 : Int) < (l : Int) := by exact_mod_cast hl
  simp [exampleModel, exampleWindow, Except.map, hl']

/-- C8, as amended: with integer `start` and `length` below `10^21` in magnitude, where a
number prints in plain decimal, the query is run with `skip` equal to `start` and `limit`
equal to `length`; and a Store that paginates then returns at most `length` documents
starting at offset `start` of what the same predicate and sort return without a window. -/
theorem buildQuery_skip_limit (rt : Runtime) (m : Model) (q : QueryOptions)
    (a : Option (Obj Cond)) (qry : Query) (s l : Int)
    (hs : q.start = .num s) (hl : q.length = .num l)
    (hsb : s.natAbs < 10 ^ 21) (hlb : l.natAbs < 10 ^ 21)
    (h : buildQuery rt m q a = .ok qry) :
    qry.skip = some (.num s) ∧ qry.limit = some (.num l)
    ∧ (m.Paginates → 0 ≤ s → 0 < l → ∀ r, exports rt m q a = .ok r →
        ∃ full, m.exec { qry with skip := none, limit := none } = .ok full
          ∧ r.data = (full.drop s.toNat).take l.toNat ∧ r.data.length ≤ l.toNat) := by
  obtain ⟨q1, q2, q3, h1, h2, h3, hq⟩ := (buildQuery_ok_iff rt m q a qry).mp h
  have hskip : qry.skip = some (.num s) := by
    rw [hq, hs]
    simp [orDefault, parseInt_num s hsb]
  have hlimit : qry.limit = some (.num l) := by
    rw [hq, hl]
    simp [orDefault, parseInt_num l hlb]
  refine ⟨hskip, hlimit, ?_⟩
  intro hp hs0 hl0 r hr
  obtain ⟨qry', records, n, hb, he, -, hrr⟩ := (exports_ok_iff rt m q a r).mp hr
  rw [h] at hb
  cases hb
  have hl1 : 0 < l.toNat := by omega
  have hpag := hp qry s.toNat l.toNat hl1
  have hsn : ((s.toNat : Nat) : Int) = s := Int.toNat_of_nonneg hs0
  have hln : ((l.toNat : Nat) : Int) = l := Int.toNat_of_nonneg (le_of_lt hl0)
  rw [hsn, hln] at hpag
  have hsame : ({ qry with skip := some (.num s), limit := some (.num l) } : Query) = qry := by
    rw [← hskip, ← hlimit]
  rw [hsame, he] at hpag
  cases hfull : m.exec { qry with skip := none, limit := none } with
  | error e => rw [hfull] at hpag; simp [Except.map] at hpag
  | ok full =>
    rw [hfull] at hpag
    simp only [Except.map, Except.ok.injEq] at hpag
    refine ⟨full, rfl, ?_, ?_⟩
    · rw [hrr, hpag]
    · rw [hrr, hpag]
      simp only [List.length_take]
      omega

theorem buildQuery_skip_limit_witness :
    pageRequest.start = .num 10 ∧ pageRequest.length = .num 5
    ∧ (10 : Int).natAbs < 10 ^ 21 ∧ (5 : Int).natAbs < 10 ^ 21
    ∧ buildQuery exampleRuntime exampleModel pageRequest none = .ok pageQuery
    ∧ exports exampleRuntime exampleModel pageRequest none = .ok pageResponse
    ∧ pageQuery.skip = some (.num 10) ∧ pageQuery.limit = some (.num 5)
    ∧ ∃ full, exampleModel.exec { pageQuery with skip := none, limit := none } = .ok full
        ∧ pageResponse.data = (full.drop (10 : Int).toNat).take (5 : Int).toNat
        ∧ pageResponse.data.length ≤ (5 : Int).toNat :=
  have key := buildQuery_skip_limit exampleRuntime exampleModel pageRequest none pageQuery
    10 5 rfl rfl (by decide) (by decide) rfl
  ⟨rfl, rfl, by decide, by decide, rfl, rfl, key.1, key.2.1,
    key.2.2 exampleModel_paginates (by decide) (by decide) pageResponse rfl⟩

/-- C8, counterexample: `start = 10^21` is an integer, and the query is run with `skip = 1`,
because `parseInt` reads the text `1e+21` of the number. -/
theorem buildQuery_skip_large_start :
    bigStartRequest.start = .num (10 ^ 21) ∧ bigStartRequest.length = .num 5
    ∧ buildQuery exampleRuntime exampleModel bigStartRequest none = .ok bigStartQuery
    ∧ bigStartQuery.skip = some (.num 1)
    ∧ bigStartQuery.skip ≠ some (.num (10 ^ 21)) :=
  ⟨rfl, rfl, rfl, rfl, by decide⟩

/-! ## Sorting -/

theorem Obj.set_new_plain {α : Type} (o : Obj α) (k : String) (v : α)
    (hnew : Obj.has o k = false) (hidx : arrayIndex? k = none) (hproto : k ≠ "__proto__") :
    Obj.set o k v = o ++ [(k, v)] := by
  unfold Obj.set Obj.define
  rw [if_neg hproto, hnew, hidx]
  simp

theorem Obj.has_append_single {α : Type} (o : Obj α) (k : String) (v : α) (k' : String) :
    Obj.has (o ++ [(k, v)]) k' = (Obj.has o k' || k == k') := by
  simp [Obj.has]

theorem sortKeySpec_cons_some (columns : List Column) (o : ColumnOrder)
    (rest : List ColumnOrder) (col : Column) (h : columnAt columns o.column = some col) :
    sortKeySpec columns (o :: rest)
      = (toStr col.data, if o.dir = .str "asc" then 1 else -1) :: sortKeySpec columns rest := by
  simp [sortKeySpec, List.filterMap_cons, h]

theorem sortCriteria_eq_spec (columns : List Column) (order : List ColumnOrder) (acc : Obj Int)
    (hvalid : ∀ o ∈ order, (columnAt columns o.column).isSome = true)
    (hnodup : ((sortKeySpec columns order).map Prod.fst).Nodup)
    (hfresh : ∀ e ∈ sortKeySpec columns order, Obj.has acc e.1 = false)
    (hplain : ∀ e ∈ sortKeySpec columns order, arrayIndex? e.1 = none ∧ e.1 ≠ "__proto__") :
    sortCriteria columns order acc = .ok (acc ++ sortKeySpec columns order) := by
  induction order generalizing acc with
  | nil => simp [sortCriteria, sortKeySpec]
  | cons o rest ih =>
    have hsome := hvalid o (List.mem_cons_self _ _)
    obtain ⟨col, hcol⟩ := Option.isSome_iff_exists.mp hsome
    have hspec := sortKeySpec_cons_some columns o rest col hcol
    rw [hspec] at hnodup hfresh hplain ⊢
    simp only [List.map_cons, List.nodup_cons] at hnodup
    have hk := hplain _ (List.mem_cons_self _ _)
    have hf := hfresh _ (List.mem_cons_self _ _)
    simp only [sortCriteria, hcol]
    rw [Obj.set_new_plain acc _ _ hf hk.1 hk.2]
    rw [ih _ (fun o' ho' => hvalid o' (List.mem_cons_of_mem _ ho')) hnodup.2]
    · simp
    · intro e he
      rw [Obj.has_append_single, hfresh e (List.mem_cons_of_mem _ he)]
      simp only [Bool.false_or, beq_eq_false_iff_ne, ne_eq]
      intro heq
      exact hnodup.1 (heq ▸ List.mem_map_of_mem Prod.fst he)
    · intro e he
      exact hplain e (List.mem_cons_of_mem _ he)

/-- C6, as amended: for a non-empty `order` whose column indices are valid, and whose
field names are pairwise distinct and are neither array-index keys nor `__proto__`, the
sort given to the Store lists one entry per entry of `order`, in the same sequence,
mapping `columns[column].data` to `1` when `dir` is `"asc"` and to `-1` otherwise. -/
theorem sorting_follows_order (rt : Runtime) (m : Model) (q : QueryOptions)
    (a : Option (Obj Cond)) (qry query0 : Query)
    (hne : q.order.getD [] ≠ [])
    (hvalid : ∀ o ∈ q.order.getD [], (columnAt (q.columns.getD []) o.column).isSome = true)
    (hnodup : ((sortKeySpec (q.columns.getD []) (q.order.getD [])).map Prod.fst).Nodup)
    (hplain : ∀ e ∈ sortKeySpec (q.columns.getD []) (q.order.getD []),
      arrayIndex? e.1 = none ∧ e.1 ≠ "__proto__")
    (h : buildQuery rt m q a = .ok qry) :
    sorting (q.order.getD []) (q.columns.getD []) query0
      = .ok { query0 with sort := some (sortKeySpec (q.columns.getD []) (q.order.getD [])) }
    ∧ qry.sort = some (sortKeySpec (q.columns.getD []) (q.order.getD [])) := by
  have hsc := sortCriteria_eq_spec (q.columns.getD []) (q.order.getD []) [] hvalid hnodup
    (fun _ _ => rfl) hplain
  have hlen : ((q.order.getD []).length != 0) = true := by
    cases hq : q.order.getD [] with
    | nil => exact absurd hq hne
    | cons _ _ => simp
  have hsort : ∀ query, sorting (q.order.getD []) (q.columns.getD []) query
      = .ok { query with sort := some (sortKeySpec (q.columns.getD []) (q.order.getD [])) } := by
    intro query
    unfold sorting
    rw [if_pos hlen, hsc]
    simp
  refine ⟨hsort query0, ?_⟩
  obtain ⟨q1, q2, q3, h1, h2, h3, hq⟩ := (buildQuery_ok_iff rt m q a qry).mp h
  rw [hsort q2] at h3
  cases h3
  rw [hq]

theorem sorting_follows_order_witness :
    twoKeyRequest.order.getD [] ≠ []
    ∧ (∀ o ∈ twoKeyRequest.order.getD [],
        (columnAt (twoKeyRequest.columns.getD []) o.column).isSome = true)
    ∧ ((sortKeySpec (twoKeyRequest.columns.getD []) (twoKeyRequest.order.getD [])).map
        Prod.fst).Nodup
    ∧ (∀ e ∈ sortKeySpec (twoKeyRequest.columns.getD []) (twoKeyRequest.order.getD []),
        arrayIndex? e.1 = none ∧ e.1 ≠ "__proto__")
    ∧ buildQuery exampleRuntime exampleModel twoKeyRequest none = .ok twoKeyQuery
    ∧ sortKeySpec (twoKeyRequest.columns.getD []) (twoKeyRequest.order.getD [])
        = [("b", -1), ("a", 1)]
    ∧ sorting (twoKeyRequest.order.getD []) (twoKeyRequest.columns.getD []) twoKeyQuery
        = .ok { twoKeyQuery with
                sort := some (sortKeySpec (twoKeyRequest.columns.getD [])
                  (twoKeyRequest.order.getD [])) }
    ∧ twoKeyQuery.sort
        = some (sortKeySpec (twoKeyRequest.columns.getD []) (twoKeyRequest.order.getD [])) :=
  ⟨by decide, by decide, by decide, by decide, rfl, rfl,
    sorting_follows_order exampleRuntime exampleModel twoKeyRequest none twoKeyQuery
      twoKeyQuery (by decide) (by decide) (by decide) (by decide) rfl⟩

/-- C6, counterexample: with valid column indices the sort is not always one entry per
entry of `order` in the same sequence. An `order` that names the field `a` twice gives the
single key `a`; the field names `b` then `1` give the keys `1` then `b`; the field name
`__proto__` gives no key at all. -/
theorem sorting_not_one_entry_per_order :
    (sorting [{ column := 0, dir := .str "asc" }, { column := 0, dir := .str "desc" }]
        [{ data := .str "a" }] { conditions := [] }
      = .ok { conditions := [], sort := some [("a", -1)] }
     ∧ ({ conditions := [], sort := some [("a", -1)] } : Query)
      ≠ { conditions := [],
          sort := some (sortKeySpec [{ data := .str "a" }]
            [{ column := 0, dir := .str "asc" }, { column := 0, dir := .str "desc" }]) })
    ∧ (sorting [{ column := 0, dir := .str "asc" }, { column := 1, dir := .str "asc" }]
        [{ data := .str "b" }, { data := .str "1" }] { conditions := [] }
      = .ok { conditions := [], sort := some [("1", 1), ("b", 1)] }
     ∧ ({ conditions := [], sort := some [("1", 1), ("b", 1)] } : Query)
      ≠ { conditions := [],
          sort := some (sortKeySpec [{ data := .str "b" }, { data := .str "1" }]
            [{ column := 0, dir := .str "asc" }, { column := 1, dir := .str "asc" }]) })
    ∧ (sorting [{ column := 0, dir := .str "asc" }]
        [{ data := .str "__proto__" }] { conditions := [] }
      = .ok { conditions := [], sort := some [] }
     ∧ ({ conditions := [], sort := some [] } : Query)
      ≠ { conditions := [],
          sort := some (sortKeySpec [{ data := .str "__proto__" }]
            [{ column := 0, dir := .str "asc" }]) }) :=
  ⟨⟨rfl, by decide⟩, ⟨rfl, by decide⟩, ⟨rfl, by decide⟩⟩

/-! ## The general search and the column filter -/

theorem generalSearch_of_truthy (rt : Runtime) (m : Model) (search : Option Search)
    (columns : List Column) (query q1 : Query)
    (hv : toBoolean (Search.valueOf search) = true)
    (h : generalSearch rt m search columns query = .ok q1) :
    ∃ sv fields,
      searchValue rt (Search.regexOf search) (Search.valueOf search) = .ok sv
      ∧ searchableFields rt columns = .ok fields
      ∧ q1 = { query with
               or := some (generalSearchValuesFilter
                 (searchFilter (dataTypeMap m fields) sv (Search.valueOf search)
                   (searchValueDataType (Search.valueOf search)) fields)) } := by
  unfold generalSearch at h
  rw [if_pos hv] at h
  split at h
  · cases h
  · rename_i sv hsv
    split at h
    · cases h
    · rename_i fields hf
      exact ⟨sv, fields, hsv, hf, (Except.ok.inj h).symm⟩

theorem columnsSearchesFilter_length (rt : Runtime) (cols : List Column)
    (clauses : List (String × Cond)) (h : columnsSearchesFilter rt cols = .ok clauses) :
    clauses.length = cols.length := by
  induction cols generalizing clauses with
  | nil =>
    simp only [columnsSearchesFilter, Except.ok.injEq] at h
    subst h
    rfl
  | cons col rest ih =>
    simp only [columnsSearchesFilter] at h
    split at h
    · cases h
    · split at h
      · cases h
      · rename_i r hr
        cases h
        simp [ih r hr]

theorem columnFilter_of_some (rt : Runtime) (columns : List Column) (query q2 : Query)
    (hc : columnSearch columns ≠ [])
    (h : columnFilter rt columns query = .ok q2) :
    ∃ clauses,
      columnsSearchesFilter rt (columnSearch columns) = .ok clauses
      ∧ clauses ≠ []
      ∧ q2 = { query with and := some clauses } := by
  unfold columnFilter at h
  have hlen : ((columnSearch columns).length != 0) = true := by
    cases hq : columnSearch columns with
    | nil => exact absurd hq hc
    | cons _ _ => simp
  rw [if_pos hlen] at h
  split at h
  · cases h
  · rename_i clauses hcl
    refine ⟨clauses, hcl, ?_, (Except.ok.inj h).symm⟩
    intro hnil
    have := columnsSearchesFilter_length rt _ _ hcl
    rw [hnil] at this
    exact hc (List.length_eq_zero.mp this.symm)

theorem Query.matches_of_groups (sat : String → Cond → Doc → Bool) (qry : Query) (d : Doc)
    (oc cc : List (String × Cond)) (ho : qry.or = some oc) (ha : qry.and = some cc)
    (hoc : oc ≠ []) (hcc : cc ≠ []) :
    qry.matches sat d =
      some (qry.conditions.all (fun c => sat c.1 c.2 d) && oc.any (fun c => sat c.1 c.2 d)
        && cc.all (fun c => sat c.1 c.2 d)) := by
  unfold Query.matches
  rw [ho, ha]
  cases oc with
  | nil => exact absurd rfl hoc
  | cons x xs =>
    cases cc with
    | nil => exact absurd rfl hcc
    | cons y ys => rfl

/-- C9: when the general search term is non-empty and yields at least one OR clause, and
some column has a non-empty `search.value`, the query holds the base predicate, the OR
group of the general-search clauses and the AND group of the column clauses, and a
document matches it exactly when it satisfies the base predicate, at least one clause of
the OR group and every clause of the AND group. -/
theorem buildQuery_search_and_column_filter (rt : Runtime) (m : Model) (q : QueryOptions)
    (a : Option (Obj Cond)) (qry : Query) (sat : String → Cond → Doc → Bool) (d : Doc)
    (hv : toBoolean (Search.valueOf q.search) = true)
    (hcol : ∃ col ∈ q.columns.getD [], toBoolean (Search.valueOf col.search) = true)
    (h : buildQuery rt m q a = .ok qry)
    (hor : qry.or ≠ some []) :
    ∃ sv fields orClauses colClauses,
      searchValue rt (Search.regexOf q.search) (Search.valueOf q.search) = .ok sv
      ∧ searchableFields rt (q.columns.getD []) = .ok fields
      ∧ orClauses = generalSearchValuesFilter
          (searchFilter (dataTypeMap m fields) sv (Search.valueOf q.search)
            (searchValueDataType (Search.valueOf q.search)) fields)
      ∧ columnsSearchesFilter rt (columnSearch (q.columns.getD [])) = .ok colClauses
      ∧ qry.conditions = Obj.spread (Obj.spread [] (q.find.getD [])) (a.getD [])
      ∧ qry.or = some orClauses ∧ qry.and = some colClauses
      ∧ qry.matches sat d =
          some ((Obj.spread (Obj.spread [] (q.find.getD [])) (a.getD [])).all
              (fun c => sat c.1 c.2 d)
            && orClauses.any (fun c => sat c.1 c.2 d)
            && colClauses.all (fun c => sat c.1 c.2 d)) := by
  obtain ⟨q1, q2, q3, h1, h2, h3, hq⟩ := (buildQuery_ok_iff rt m q a qry).mp h
  obtain ⟨sv, fields, hsv, hf, hq1⟩ := generalSearch_of_truthy rt m _ _ _ _ hv h1
  have hcs : columnSearch (q.columns.getD []) ≠ [] := by
    obtain ⟨col, hmem, htrue⟩ := hcol
    intro hnil
    have : col ∈ columnSearch (q.columns.getD []) := by
      unfold columnSearch
      exact List.mem_filter.mpr ⟨hmem, htrue⟩
    rw [hnil] at this
    cases this
  obtain ⟨colClauses, hcl, hclne, hq2⟩ := columnFilter_of_some rt _ _ _ hcs h2
  have hq3 := sorting_ok _ _ _ _ h3
  have hconds : qry.conditions = Obj.spread (Obj.spread [] (q.find.getD [])) (a.getD []) := by
    rw [hq, hq3, hq2, hq1]
    rfl
  have hqor : qry.or = some (generalSearchValuesFilter
      (searchFilter (dataTypeMap m fields) sv (Search.valueOf q.search)
        (searchValueDataType (Search.valueOf q.search)) fields)) := by
    rw [hq, hq3, hq2, hq1]
  have hqand : qry.and = some colClauses := by
    rw [hq, hq3, hq2]
  refine ⟨sv, fields, _, colClauses, hsv, hf, rfl, hcl, hconds, hqor, hqand, ?_⟩
  rw [hqor] at hor
  rw [← hconds]
  exact Query.matches_of_groups sat qry d _ _ hqor hqand (fun hnil => hor (by rw [hnil])) hclne

theorem buildQuery_search_and_column_filter_witness :
    toBoolean (Search.valueOf activeRequest.search) = true
    ∧ (∃ col ∈ activeRequest.columns.getD [], toBoolean (Search.valueOf col.search) = true)
    ∧ buildQuery exampleRuntime exampleModel activeRequest none = .ok activeQuery
    ∧ activeQuery.or ≠ some []
    ∧ ∃ sv fields orClauses colClauses,
      searchValue exampleRuntime (Search.regexOf activeRequest.search)
          (Search.valueOf activeRequest.search) = .ok sv
      ∧ searchableFields exampleRuntime (activeRequest.columns.getD []) = .ok fields
      ∧ orClauses = generalSearchValuesFilter
          (searchFilter (dataTypeMap exampleModel fields) sv (Search.valueOf activeRequest.search)
            (searchValueDataType (Search.valueOf activeRequest.search)) fields)
      ∧ columnsSearchesFilter exampleRuntime (columnSearch (activeRequest.columns.getD []))
          = .ok colClauses
      ∧ activeQuery.conditions
          = Obj.spread (Obj.spread [] (activeRequest.find.getD [])) ((none : Option (Obj Cond)).getD [])
      ∧ activeQuery.or = some orClauses ∧ activeQuery.and = some colClauses
      ∧ activeQuery.matches satLiteral activeDoc =
          some ((Obj.spread (Obj.spread [] (activeRequest.find.getD []))
                ((none : Option (Obj Cond)).getD [])).all (fun c => satLiteral c.1 c.2 activeDoc)
            && orClauses.any (fun c => satLiteral c.1 c.2 activeDoc)
            && colClauses.all (fun c => satLiteral c.1 c.2 activeDoc)) :=
  ⟨rfl, ⟨_, List.mem_cons_of_mem _ (List.mem_cons_of_mem _ (List.mem_cons_self _ _)), rfl⟩,
    rfl, by decide,
    buildQuery_search_and_column_filter exampleRuntime exampleModel activeRequest none
      activeQuery satLiteral activeDoc
      rfl ⟨_, List.mem_cons_of_mem _ (List.mem_cons_of_mem _ (List.mem_cons_self _ _)), rfl⟩
      rfl (by decide)⟩

/-! ## The clauses of the general search -/

theorem dataTypeMap_foldl_get? (fields : List JSVal) (sp : List (String × String))
    (acc : Obj String) (k : String) (hk : k ≠ "__proto__") :
    Obj.get?
        (sp.foldl (fun m p => if fields.contains (.str p.1) then Obj.set m p.1 p.2 else m) acc) k
      = if fields.contains (.str k) then (Obj.get? sp k).orElse (fun _ => Obj.get? acc k)
        else Obj.get? acc k := by
  induction sp generalizing acc with
  | nil => simp [Obj.get?_nil]
  | cons e rest ih =>
    obtain ⟨p, inst⟩ := e
    rw [List.foldl_cons, ih, Obj.get?_cons]
    by_cases hc : fields.contains (JSVal.str k) = true
    · simp only [hc, if_true]
      by_cases hpk : p = k
      · subst hpk
        simp only [hc, if_true]
        rw [Obj.get?_set _ _ _ _ hk]
        cases Obj.get? rest p <;> simp
      · have hkp : k ≠ p := fun h => hpk h.symm
        have hacc : Obj.get? (if fields.contains (JSVal.str p) = true then Obj.set acc p inst
            else acc) k = Obj.get? acc k := by
          split
          · exact Obj.get?_set_of_ne _ _ _ _ hkp
          · rfl
        simp only [hacc]
        cases Obj.get? rest k <;> simp [hpk]
    · rw [if_neg hc, if_neg hc]
      by_cases hpk : p = k
      · subst hpk
        rw [if_neg hc]
      · have hkp : k ≠ p := fun h => hpk h.symm
        split
        · exact Obj.get?_set_of_ne _ _ _ _ hkp
        · rfl

theorem dataTypeMap_get? (m : Model) (fields : List JSVal) (path : String)
    (hmem : JSVal.str path ∈ fields) (hp : path ≠ "__proto__") :
    Obj.get? (dataTypeMap m fields) path = Obj.get? m.schemaPaths path := by
  unfold dataTypeMap
  rw [dataTypeMap_foldl_get? fields _ _ _ hp]
  have hc : fields.contains (JSVal.str path) = true := by
    simpa using hmem
  rw [if_pos hc, Obj.get?_nil]
  cases Obj.get? m.schemaPaths path <;> rfl

theorem searchValueDataType_of_not_isNaN (value : JSVal) (h : isNaN value = false) :
    searchValueDataType value = "number" := by
  simp [searchValueDataType, h]

theorem generalSearchValuesFilter_mem (sf : Obj Cond) (k : String) (c : Cond)
    (h : Obj.get? sf k = some c) :
    (k, c) ∈ generalSearchValuesFilter sf ∧ ∀ e ∈ generalSearchValuesFilter sf, e.1 = k → e.2 = c := by
  unfold generalSearchValuesFilter
  constructor
  · rw [List.mem_map]
    refine ⟨k, (Obj.mem_keys_iff sf k).mpr (by rw [h]; simp), ?_⟩
    rw [h]
    rfl
  · intro e he hek
    rw [List.mem_map] at he
    obtain ⟨key, -, rfl⟩ := he
    simp only at hek
    subst hek
    simp [h]

/-! ## The OR group, key by key -/

theorem Obj.get?_set_proto {α : Type} (o : Obj α) (v : α) (k : String) :
    Obj.get? (Obj.set o "__proto__" v) k = Obj.get? o k := by
  simp [Obj.set]

/-- One step of the reducer, read at a key. -/
theorem searchFilterStep_get? (dtm : Obj String) (sv : Cond) (value : JSVal) (kind : String)
    (filter : Obj Cond) (field : JSVal) (k : String) :
    Obj.get? (searchFilterStep dtm sv value kind filter field) k =
      if toStr field = k ∧ k ≠ "__proto__" then
        (clauseOf (Obj.get? dtm k) sv value kind).orElse (fun _ => Obj.get? filter k)
      else Obj.get? filter k := by
  by_cases hf : toStr field = k
  · subst hf
    by_cases hp : toStr field = "__proto__"
    · have hfalse : ¬ (toStr field = toStr field ∧ toStr field ≠ "__proto__") :=
        fun h => h.2 hp
      rw [if_neg hfalse]
      unfold searchFilterStep
      simp only
      rw [hp]
      split
      · exact Obj.get?_set_proto _ _ _
      · split
        · exact Obj.get?_set_proto _ _ _
        · split
          · exact Obj.get?_set_proto _ _ _
          · rfl
    · rw [if_pos ⟨rfl, hp⟩]
      unfold searchFilterStep clauseOf
      simp only
      split
      · rw [Obj.get?_set _ _ _ _ hp]; simp
      · split
        · rw [Obj.get?_set _ _ _ _ hp]; simp
        · split
          · rw [Obj.get?_set _ _ _ _ hp]; simp
          · simp
  · have hne : k ≠ toStr field := fun h => hf h.symm
    have hfalse : ¬ (toStr field = k ∧ k ≠ "__proto__") := fun h => hf h.1
    rw [if_neg hfalse]
    unfold searchFilterStep
    simp only
    split
    · exact Obj.get?_set_of_ne _ _ _ _ hne
    · split
      · exact Obj.get?_set_of_ne _ _ _ _ hne
      · split
        · exact Obj.get?_set_of_ne _ _ _ _ hne
        · rfl

/-- The whole reduction, read at a key: the clause of the key's declared type when some
searchable field has that key, and what was there before otherwise. -/
theorem searchFilter_foldl_get? (dtm : Obj String) (sv : Cond) (value : JSVal) (kind : String)
    (fields : List JSVal) (filter : Obj Cond) (k : String) :
    Obj.get? (fields.foldl (searchFilterStep dtm sv value kind) filter) k =
      if (∃ f ∈ fields, toStr f = k) ∧ k ≠ "__proto__" then
        (clauseOf (Obj.get? dtm k) sv value kind).orElse (fun _ => Obj.get? filter k)
      else Obj.get? filter k := by
  induction fields generalizing filter with
  | nil => simp
  | cons f rest ih =>
    rw [List.foldl_cons, ih, searchFilterStep_get?]
    by_cases hp : k = "__proto__"
    · simp [hp]
    · have hp' : k ≠ "__proto__" := hp
      have hcons : (∃ g ∈ f :: rest, toStr g = k) ↔ (toStr f = k ∨ ∃ g ∈ rest, toStr g = k) := by
        constructor
        · rintro ⟨g, hg, hgk⟩
          rcases List.mem_cons.mp hg with rfl | hg
          · exact Or.inl hgk
          · exact Or.inr ⟨g, hg, hgk⟩
        · rintro (hfk | ⟨g, hg, hgk⟩)
          · exact ⟨f, List.mem_cons_self _ _, hfk⟩
          · exact ⟨g, List.mem_cons_of_mem _ hg, hgk⟩
      simp only [hcons]
      by_cases hf : toStr f = k <;> by_cases hr : (∃ g ∈ rest, toStr g = k) <;>
        cases clauseOf (Obj.get? dtm k) sv value kind <;> simp [hf, hr, hp']

theorem searchFilter_get? (dtm : Obj String) (sv : Cond) (value : JSVal) (kind : String)
    (fields : List JSVal) (k : String) :
    Obj.get? (searchFilter dtm sv value kind fields) k =
      if (∃ f ∈ fields, toStr f = k) ∧ k ≠ "__proto__" then
        clauseOf (Obj.get? dtm k) sv value kind
      else none := by
  unfold searchFilter
  rw [searchFilter_foldl_get?]
  split
  · cases clauseOf (Obj.get? dtm k) sv value kind <;> rfl
  · rfl

theorem generalSearchValuesFilter_mem_iff (sf : Obj Cond) (k : String) (c : Cond) :
    (k, c) ∈ generalSearchValuesFilter sf ↔ Obj.get? sf k = some c := by
  constructor
  · intro h
    unfold generalSearchValuesFilter at h
    rw [List.mem_map] at h
    obtain ⟨key, hkey, heq⟩ := h
    simp only [Prod.mk.injEq] at heq
    obtain ⟨rfl, hc⟩ := heq
    have hne := (Obj.mem_keys_iff sf key).mp hkey
    cases hg : Obj.get? sf key with
    | none => exact absurd hg hne
    | some c' =>
      rw [hg] at hc
      simp only [Option.getD_some] at hc
      rw [hc]
  · intro h
    exact (generalSearchValuesFilter_mem sf k c h).1

/-- The OR group of a query that was built with a non-empty general search term. -/
theorem buildQuery_or_of_truthy (rt : Runtime) (m : Model) (q : QueryOptions)
    (a : Option (Obj Cond)) (qry : Query)
    (hv : toBoolean (Search.valueOf q.search) = true)
    (h : buildQuery rt m q a = .ok qry) :
    ∃ sv fields,
      searchValue rt (Search.regexOf q.search) (Search.valueOf q.search) = .ok sv
      ∧ searchableFields rt (q.columns.getD []) = .ok fields
      ∧ qry.or = some (generalSearchValuesFilter
          (searchFilter (dataTypeMap m fields) sv (Search.valueOf q.search)
            (searchValueDataType (Search.valueOf q.search)) fields)) := by
  obtain ⟨q1, q2, q3, h1, h2, h3, hq⟩ := (buildQuery_ok_iff rt m q a qry).mp h
  obtain ⟨sv, fields, hsv, hf, hq1⟩ := generalSearch_of_truthy rt m _ _ _ _ hv h1
  have hq3 := sorting_ok _ _ _ _ h3
  have hq2 : q2.or = q1.or := by
    unfold columnFilter at h2
    split at h2
    · split at h2
      · cases h2
      · cases h2; rfl
    · cases h2; rfl
  refine ⟨sv, fields, hsv, hf, ?_⟩
  rw [hq, hq3]
  show q2.or = _
  rw [hq2, hq1]

theorem newRegExp_of_truthy (rt : Runtime) (value : JSVal) (hv : toBoolean value = true) :
    newRegExp rt value =
      if rt.regExpOk (toStr value) then .ok (.regExp (toStr value) "ig")
      else .error .syntaxError := by
  cases value <;> first | rfl | (simp [toBoolean] at hv)

theorem searchValue_eq_spec (rt : Runtime) (regex value : JSVal) (sv : Cond)
    (hv : toBoolean value = true) (h : searchValue rt regex value = .ok sv) :
    sv = matchValueSpec regex value := by
  unfold searchValue at h
  unfold matchValueSpec
  split at h
  · rename_i hr
    rw [if_pos hr]
    rw [newRegExp_of_truthy rt value hv] at h
    split at h
    · exact (Except.ok.inj h).symm
    · cases h
  · rename_i hr
    rw [if_neg hr]
    exact (Except.ok.inj h).symm

theorem dataTypeMap_get?_eq (m : Model) (fields : List JSVal) (k : String)
    (hk : k ≠ "__proto__") :
    Obj.get? (dataTypeMap m fields) k =
      if fields.contains (.str k) then Obj.get? m.schemaPaths k else none := by
  unfold dataTypeMap
  rw [dataTypeMap_foldl_get? fields _ _ _ hk, Obj.get?_nil]
  split
  · cases Obj.get? m.schemaPaths k <;> rfl
  · rfl

theorem filterE_mem {α : Type} (cb : α → Except JSErr Bool) (xs r : List α)
    (h : filterE cb xs = .ok r) (x : α) (hx : x ∈ r) : x ∈ xs ∧ cb x = .ok true := by
  induction xs generalizing r with
  | nil =>
    simp only [filterE, Except.ok.injEq] at h
    subst h
    cases hx
  | cons y ys ih =>
    simp only [filterE] at h
    split at h
    · cases h
    · rename_i b hb
      split at h
      · cases h
      · rename_i r' hr'
        simp only [Except.ok.injEq] at h
        subst h
        cases b with
        | true =>
          simp only [if_true] at hx
          rcases List.mem_cons.mp hx with rfl | hx'
          · exact ⟨List.mem_cons_self _ _, hb⟩
          · exact ⟨List.mem_cons_of_mem _ (ih r' hr' hx').1, (ih r' hr' hx').2⟩
        | false =>
          simp only [Bool.false_eq_true, if_false] at hx
          exact ⟨List.mem_cons_of_mem _ (ih r' hr' hx).1, (ih r' hr' hx).2⟩

theorem searchableFields_mem (rt : Runtime) (columns : List Column) (fields : List JSVal)
    (h : searchableFields rt columns = .ok fields) (f : JSVal) (hf : f ∈ fields) :
    ∃ col ∈ columns, col.data = f ∧ rt.jsonParseTruthy (toStr col.searchable) = .ok true := by
  unfold searchableFields at h
  split at h
  · cases h
  · rename_i cols hcols
    simp only [Except.ok.injEq] at h
    subst h
    obtain ⟨col, hcol, rfl⟩ := List.mem_map.mp hf
    obtain ⟨h1, h2⟩ := filterE_mem _ _ _ hcols col hcol
    exact ⟨col, h1, rfl, h2⟩

theorem columnsSearchesFilter_eq_map (rt : Runtime) (cols : List Column)
    (clauses : List (String × Cond))
    (hall : ∀ col ∈ cols, toBoolean (Search.valueOf col.search) = true)
    (h : columnsSearchesFilter rt cols = .ok clauses) :
    clauses = cols.map (fun col => (toStr col.data,
      matchValueSpec (Search.regexOf col.search) (Search.valueOf col.search))) := by
  induction cols generalizing clauses with
  | nil =>
    simp only [columnsSearchesFilter, Except.ok.injEq] at h
    subst h
    rfl
  | cons col rest ih =>
    simp only [columnsSearchesFilter] at h
    split at h
    · cases h
    · rename_i sv hsv
      split at h
      · cases h
      · rename_i r hr
        simp only [Except.ok.injEq] at h
        subst h
        have hsv' := searchValue_eq_spec rt _ _ sv (hall col (List.mem_cons_self _ _)) hsv
        rw [ih r (fun c hc => hall c (List.mem_cons_of_mem _ hc)) hr, hsv']
        rfl

/-- C11: with a non-empty general search term, numeric or not, a searchable field whose
schema type is `String` has in the OR group the clause whose match value is the regular
expression compiled from the term with the flags `ig` when `search.regex` is true and the
literal term otherwise, and no other clause. -/
theorem buildQuery_string_clause (rt : Runtime) (m : Model) (q : QueryOptions)
    (a : Option (Obj Cond)) (qry : Query) (fields : List JSVal) (path : String)
    (hv : toBoolean (Search.valueOf q.search) = true)
    (hf : searchableFields rt (q.columns.getD []) = .ok fields)
    (hmem : JSVal.str path ∈ fields)
    (hty : Obj.get? m.schemaPaths path = some "String")
    (hp : path ≠ "__proto__")
    (h : buildQuery rt m q a = .ok qry) :
    ∃ orClauses, qry.or = some orClauses
      ∧ (path, matchValueSpec (Search.regexOf q.search) (Search.valueOf q.search)) ∈ orClauses
      ∧ ∀ e ∈ orClauses, e.1 = path →
          e.2 = matchValueSpec (Search.regexOf q.search) (Search.valueOf q.search) := by
  obtain ⟨sv, fields', hsv, hf', hor⟩ := buildQuery_or_of_truthy rt m q a qry hv h
  rw [hf] at hf'
  cases hf'
  have hsv' := searchValue_eq_spec rt _ _ sv hv hsv
  subst hsv'
  have hget : Obj.get? (searchFilter (dataTypeMap m fields)
      (matchValueSpec (Search.regexOf q.search) (Search.valueOf q.search))
      (Search.valueOf q.search) (searchValueDataType (Search.valueOf q.search)) fields) path
      = some (matchValueSpec (Search.regexOf q.search) (Search.valueOf q.search)) := by
    rw [searchFilter_get?, if_pos ⟨⟨_, hmem, rfl⟩, hp⟩, dataTypeMap_get? m fields path hmem hp, hty]
    simp [clauseOf]
  obtain ⟨hin, honly⟩ := generalSearchValuesFilter_mem _ _ _ hget
  exact ⟨_, hor, hin, honly⟩

theorem buildQuery_string_clause_witness :
    toBoolean (Search.valueOf annRequest.search) = true
    ∧ searchableFields exampleRuntime (annRequest.columns.getD []) = .ok [.str "name"]
    ∧ JSVal.str "name" ∈ [JSVal.str "name"]
    ∧ Obj.get? exampleModel.schemaPaths "name" = some "String"
    ∧ "name" ≠ "__proto__"
    ∧ buildQuery exampleRuntime exampleModel annRequest none = .ok annQuery
    ∧ matchValueSpec (Search.regexOf annRequest.search) (Search.valueOf annRequest.search)
        = .regExp "ann" "ig"
    ∧ satExample "name" (.regExp "ann" "ig") [("name", .str "Anna")] = true
    ∧ satExample "name" (.regExp "ann" "ig") [("name", .str "Bob")] = false
    ∧ ∃ orClauses, annQuery.or = some orClauses
      ∧ ("name", matchValueSpec (Search.regexOf annRequest.search)
          (Search.valueOf annRequest.search)) ∈ orClauses
      ∧ ∀ e ∈ orClauses, e.1 = "name" →
          e.2 = matchValueSpec (Search.regexOf annRequest.search)
            (Search.valueOf annRequest.search) :=
  ⟨rfl, rfl, List.mem_singleton.mpr rfl, rfl, by decide, rfl, rfl, by decide, by decide,
    buildQuery_string_clause exampleRuntime exampleModel annRequest none annQuery
      [.str "name"] "name" rfl rfl (List.mem_singleton.mpr rfl) rfl (by decide) rfl⟩

/-- C12: with a non-empty general search term, every clause of the OR group is on the
`data` of some column whose `searchable` flag parses to a true value; so a field whose
every column has `searchable` equal to `"false"` has no clause, whatever its declared
type. -/
theorem buildQuery_or_fields_searchable (rt : Runtime) (m : Model) (q : QueryOptions)
    (a : Option (Obj Cond)) (qry : Query) (orClauses : List (String × Cond))
    (e : String × Cond)
    (hv : toBoolean (Search.valueOf q.search) = true)
    (hfalse : rt.jsonParseTruthy "false" = .ok false)
    (h : buildQuery rt m q a = .ok qry)
    (hor : qry.or = some orClauses)
    (he : e ∈ orClauses) :
    (∃ col ∈ q.columns.getD [], toStr col.data = e.1
        ∧ rt.jsonParseTruthy (toStr col.searchable) = .ok true)
    ∧ ¬ (∀ col ∈ q.columns.getD [], toStr col.data = e.1 → col.searchable = .str "false") := by
  obtain ⟨sv, fields, hsv, hf, hor'⟩ := buildQuery_or_of_truthy rt m q a qry hv h
  rw [hor] at hor'
  simp only [Option.some.injEq] at hor'
  subst hor'
  have hget := (generalSearchValuesFilter_mem_iff _ e.1 e.2).mp he
  rw [searchFilter_get?] at hget
  have hcol : ∃ col ∈ q.columns.getD [], toStr col.data = e.1
      ∧ rt.jsonParseTruthy (toStr col.searchable) = .ok true := by
    split at hget
    · rename_i hc
      obtain ⟨⟨f, hfm, hfk⟩, -⟩ := hc
      obtain ⟨col, hcm, hcd, hcs⟩ := searchableFields_mem rt _ _ hf f hfm
      exact ⟨col, hcm, by rw [hcd]; exact hfk, hcs⟩
    · cases hget
  refine ⟨hcol, ?_⟩
  intro hall
  obtain ⟨col, hcm, hcd, hcs⟩ := hcol
  rw [hall col hcm hcd] at hcs
  simp only [toStr] at hcs
  rw [hfalse] at hcs
  cases hcs

theorem buildQuery_or_fields_searchable_witness :
    toBoolean (Search.valueOf activeRequest.search) = true
    ∧ exampleRuntime.jsonParseTruthy "false" = .ok false
    ∧ buildQuery exampleRuntime exampleModel activeRequest none = .ok activeQuery
    ∧ activeQuery.or = some [("name", .eq (.str "X")), ("email", .eq (.str "X"))]
    ∧ (("email", Cond.eq (.str "X")) : String × Cond)
        ∈ [("name", Cond.eq (.str "X")), ("email", Cond.eq (.str "X"))]
    ∧ (∃ col ∈ activeRequest.columns.getD [], toStr col.data = "email"
        ∧ exampleRuntime.jsonParseTruthy (toStr col.searchable) = .ok true)
    ∧ ¬ (∀ col ∈ activeRequest.columns.getD [],
          toStr col.data = "email" → col.searchable = .str "false") :=
  ⟨rfl, rfl, rfl, rfl, by decide,
    buildQuery_or_fields_searchable exampleRuntime exampleModel activeRequest none activeQuery
      [("name", .eq (.str "X")), ("email", .eq (.str "X"))] ("email", .eq (.str "X"))
      rfl rfl rfl rfl (by decide)⟩

/-- C13: when some column has a non-empty `search.value`, the AND group given to the Store
is, in column order, one clause per column with a non-empty `search.value`, on that
column's `data`, with the regular expression compiled from the column's `search.value`
when its `search.regex` is true and the literal `search.value` otherwise; the other
columns give no clause. -/
theorem buildQuery_and_group (rt : Runtime) (m : Model) (q : QueryOptions)
    (a : Option (Obj Cond)) (qry : Query)
    (hcol : ∃ col ∈ q.columns.getD [], toBoolean (Search.valueOf col.search) = true)
    (h : buildQuery rt m q a = .ok qry) :
    qry.and = some (andGroupSpec (q.columns.getD [])) := by
  obtain ⟨q1, q2, q3, h1, h2, h3, hq⟩ := (buildQuery_ok_iff rt m q a qry).mp h
  have hcs : columnSearch (q.columns.getD []) ≠ [] := by
    obtain ⟨col, hmem, htrue⟩ := hcol
    intro hnil
    have : col ∈ columnSearch (q.columns.getD []) := by
      unfold columnSearch
      exact List.mem_filter.mpr ⟨hmem, htrue⟩
    rw [hnil] at this
    cases this
  obtain ⟨clauses, hcl, -, hq2⟩ := columnFilter_of_some rt _ _ _ hcs h2
  have hq3 := sorting_ok _ _ _ _ h3
  have hall : ∀ col ∈ columnSearch (q.columns.getD []),
      toBoolean (Search.valueOf col.search) = true := by
    intro col hc
    unfold columnSearch at hc
    exact (List.mem_filter.mp hc).2
  have hmap := columnsSearchesFilter_eq_map rt _ clauses hall hcl
  rw [hq, hq3, hq2]
  show some clauses = _
  rw [hmap]
  rfl

theorem buildQuery_and_group_witness :
    (∃ col ∈ activeRequest.columns.getD [], toBoolean (Search.valueOf col.search) = true)
    ∧ buildQuery exampleRuntime exampleModel activeRequest none = .ok activeQuery
    ∧ andGroupSpec (activeRequest.columns.getD []) = [("status", .eq (.str "active"))]
    ∧ activeQuery.and = some (andGroupSpec (activeRequest.columns.getD [])) :=
  ⟨⟨_, List.mem_cons_of_mem _ (List.mem_cons_of_mem _ (List.mem_cons_self _ _)), rfl⟩,
    rfl, rfl,
    buildQuery_and_group exampleRuntime exampleModel activeRequest none activeQuery
      ⟨_, List.mem_cons_of_mem _ (List.mem_cons_of_mem _ (List.mem_cons_self _ _)), rfl⟩ rfl⟩

theorem buildQuery_or_of_falsy (rt : Runtime) (m : Model) (q : QueryOptions)
    (a : Option (Obj Cond)) (qry : Query)
    (hv : toBoolean (Search.valueOf q.search) = false)
    (h : buildQuery rt m q a = .ok qry) : qry.or = none := by
  obtain ⟨q1, q2, q3, h1, h2, h3, hq⟩ := (buildQuery_ok_iff rt m q a qry).mp h
  rw [generalSearch_of_falsy rt m _ _ _ hv] at h1
  cases h1
  have hq3 := sorting_ok _ _ _ _ h3
  have hq2 : q2.or = none := by
    unfold columnFilter at h2
    split at h2
    · split at h2
      · cases h2
      · cases h2; rfl
    · cases h2; rfl
  rw [hq, hq3]
  exact hq2

/-- A clause of the OR group, traced back: its key is not `__proto__`, some searchable
field has that key, and the clause is the one the reducer gives the schema type of the
key. -/
theorem buildQuery_or_clause (rt : Runtime) (m : Model) (q : QueryOptions)
    (a : Option (Obj Cond)) (qry : Query) (orClauses : List (String × Cond))
    (e : String × Cond)
    (h : buildQuery rt m q a = .ok qry)
    (hor : qry.or = some orClauses)
    (he : e ∈ orClauses) :
    toBoolean (Search.valueOf q.search) = true ∧ e.1 ≠ "__proto__"
    ∧ ∃ fields, searchableFields rt (q.columns.getD []) = .ok fields
      ∧ (∃ f ∈ fields, toStr f = e.1)
      ∧ clauseOf (if fields.contains (.str e.1) then Obj.get? m.schemaPaths e.1 else none)
          (matchValueSpec (Search.regexOf q.search) (Search.valueOf q.search))
          (Search.valueOf q.search) (searchValueDataType (Search.valueOf q.search))
        = some e.2 := by
  have hv : toBoolean (Search.valueOf q.search) = true := by
    cases hb : toBoolean (Search.valueOf q.search) with
    | true => rfl
    | false =>
      rw [buildQuery_or_of_falsy rt m q a qry hb h] at hor
      cases hor
  obtain ⟨sv, fields, hsv, hf, hor'⟩ := buildQuery_or_of_truthy rt m q a qry hv h
  have hsv' := searchValue_eq_spec rt _ _ sv hv hsv
  subst hsv'
  rw [hor] at hor'
  simp only [Option.some.injEq] at hor'
  subst hor'
  have hget := (generalSearchValuesFilter_mem_iff _ e.1 e.2).mp he
  rw [searchFilter_get?] at hget
  split at hget
  · rename_i hc
    rw [dataTypeMap_get?_eq m fields e.1 hc.2] at hget
    exact ⟨hv, hc.2, fields, hf, hc.1, hget⟩
  · cases hget

theorem searchValueDataType_ne_date (value : JSVal) :
    searchValueDataType value ≠ "date"
    ∧ (searchValueDataType value = "number" ∨ searchValueDataType value = typeOf value) := by
  unfold searchValueDataType
  split
  · exact ⟨by decide, Or.inl rfl⟩
  · refine ⟨?_, Or.inr rfl⟩
    cases value <;> simp [typeOf]

theorem searchValueDataType_of_isNaN (value : JSVal) (hv : toBoolean value = true)
    (hn : isNaN value = true) : searchValueDataType value ≠ "number" := by
  unfold searchValueDataType
  rw [hn]
  cases value with
  | undefined => simp [toBoolean] at hv
  | null => simp [isNaN] at hn
  | bool b => simp [isNaN] at hn
  | num n => simp [isNaN] at hn
  | nan => simp [toBoolean] at hv
  | str s => simp [typeOf]

/-- C14, the code at the failing input: the general search `abc` over the numeric column
`age` yields no clause, and `.or` is still called, with the empty list; the same request
with an empty `search.value` builds the query without an OR group, and the two queries
differ. -/
theorem buildQuery_empty_or_group_attached :
    buildQuery exampleRuntime exampleModel wordOnNumberRequest none = .ok wordOnNumberQuery
    ∧ wordOnNumberQuery.or = some []
    ∧ buildQuery exampleRuntime exampleModel
        { wordOnNumberRequest with search := some { value := .str "", regex := .bool false } }
        none = .ok { wordOnNumberQuery with or := none }
    ∧ wordOnNumberQuery ≠ { wordOnNumberQuery with or := none } :=
  ⟨rfl, rfl, rfl, by decide⟩

/-- C15: with a non-empty general search term, the OR group is built without an error once
the term is compiled and the searchable flags are parsed, and it has no clause on a field
whose schema type is `Number` when the term is `NaN` as a number, on a field whose schema
type is none of `String`, `Number` and `Date`, or on a field the schema has no path for. -/
theorem buildQuery_no_clause (rt : Runtime) (m : Model) (q : QueryOptions)
    (a : Option (Obj Cond)) (qry query0 : Query) (sv : Cond) (fields : List JSVal)
    (k : String)
    (hv : toBoolean (Search.valueOf q.search) = true)
    (hsv : searchValue rt (Search.regexOf q.search) (Search.valueOf q.search) = .ok sv)
    (hf : searchableFields rt (q.columns.getD []) = .ok fields)
    (hk : Obj.get? m.schemaPaths k = none
      ∨ (Obj.get? m.schemaPaths k = some "Number" ∧ isNaN (Search.valueOf q.search) = true)
      ∨ (∃ t, Obj.get? m.schemaPaths k = some t ∧ t ≠ "String" ∧ t ≠ "Number" ∧ t ≠ "Date"))
    (h : buildQuery rt m q a = .ok qry) :
    ∃ orClauses,
      generalSearch rt m q.search (q.columns.getD []) query0
        = .ok { query0 with or := some orClauses }
      ∧ qry.or = some orClauses
      ∧ ∀ e ∈ orClauses, e.1 ≠ k := by
  obtain ⟨sv', fields', hsv', hf', hor⟩ := buildQuery_or_of_truthy rt m q a qry hv h
  rw [hsv] at hsv'
  rw [hf] at hf'
  cases hsv'
  cases hf'
  refine ⟨_, ?_, hor, ?_⟩
  · unfold generalSearch
    rw [if_pos hv, hsv, hf]
  · intro e he hek
    obtain ⟨-, -, fields', hf', -, hcl⟩ := buildQuery_or_clause rt m q a qry _ e h hor he
    rw [hf] at hf'
    cases hf'
    rw [hek] at hcl
    by_cases hc : fields.contains (JSVal.str k) = true
    · rw [if_pos hc] at hcl
      rcases hk with hk | ⟨hk, hn⟩ | ⟨t, hk, h1, h2, h3⟩
      · rw [hk] at hcl
        simp [clauseOf] at hcl
      · rw [hk] at hcl
        have := searchValueDataType_of_isNaN _ hv hn
        simp [clauseOf, this] at hcl
      · rw [hk] at hcl
        simp [clauseOf, h1, h2, h3] at hcl
    · rw [if_neg hc] at hcl
      simp [clauseOf] at hcl

theorem buildQuery_no_clause_witness :
    toBoolean (Search.valueOf abcRequest.search) = true
    ∧ searchValue exampleRuntime (Search.regexOf abcRequest.search)
        (Search.valueOf abcRequest.search) = .ok (.eq (.str "abc"))
    ∧ searchableFields exampleRuntime (abcRequest.columns.getD [])
        = .ok [.str "name", .str "age"]
    ∧ (Obj.get? exampleModel.schemaPaths "age" = none
      ∨ (Obj.get? exampleModel.schemaPaths "age" = some "Number"
          ∧ isNaN (Search.valueOf abcRequest.search) = true)
      ∨ (∃ t, Obj.get? exampleModel.schemaPaths "age" = some t
          ∧ t ≠ "String" ∧ t ≠ "Number" ∧ t ≠ "Date"))
    ∧ buildQuery exampleRuntime exampleModel abcRequest none = .ok abcQuery
    ∧ ∃ orClauses,
      generalSearch exampleRuntime exampleModel abcRequest.search
          (abcRequest.columns.getD []) abcQuery
        = .ok { abcQuery with or := some orClauses }
      ∧ abcQuery.or = some orClauses
      ∧ ∀ e ∈ orClauses, e.1 ≠ "age" :=
  ⟨rfl, rfl, rfl, Or.inr (Or.inl ⟨rfl, rfl⟩), rfl,
    buildQuery_no_clause exampleRuntime exampleModel abcRequest none abcQuery abcQuery
      (.eq (.str "abc")) [.str "name", .str "age"] "age" rfl rfl rfl
      (Or.inr (Or.inl ⟨rfl, rfl⟩)) rfl⟩

/-- C16, the code at the failing input: the general search `2024-01-01` over the
searchable column `created`, whose schema type is `Date`. The inferred kind of the term is
`"string"`, not `"date"`, so the query is built with no clause on `created` (`.or` is
called with the empty list), although the reducer, were it given the kind `"date"`, would
give the clause `{ $gte: new Date(term) }`. -/
theorem buildQuery_date_term_no_clause :
    toBoolean (Search.valueOf dateRequest.search) = true
    ∧ searchableFields exampleRuntime (dateRequest.columns.getD []) = .ok [.str "created"]
    ∧ Obj.get? exampleModel.schemaPaths "created" = some "Date"
    ∧ searchValueDataType (Search.valueOf dateRequest.search) = "string"
    ∧ buildQuery exampleRuntime exampleModel dateRequest none = .ok dateQuery
    ∧ dateQuery.or = some []
    ∧ generalSearchValuesFilter
        (searchFilter (dataTypeMap exampleModel [.str "created"]) (.eq (.str "2024-01-01"))
          (.str "2024-01-01") "date" [.str "created"])
      = [("created", .gteDate (.str "2024-01-01"))] :=
  ⟨rfl, rfl, rfl, by decide, rfl, rfl, rfl⟩

/-- C17: the inferred kind of a general search term is never `"date"`: it is `"number"` or
the `typeof` of the term; and a field whose schema type is `Date` has no clause in the OR
group of any query that is built. -/
theorem buildQuery_no_date_clause (value : JSVal) (rt : Runtime) (m : Model)
    (q : QueryOptions) (a : Option (Obj Cond)) (qry : Query)
    (orClauses : List (String × Cond)) (e : String × Cond) (k : String)
    (hty : Obj.get? m.schemaPaths k = some "Date")
    (h : buildQuery rt m q a = .ok qry)
    (hor : qry.or = some orClauses)
    (he : e ∈ orClauses) :
    searchValueDataType value ≠ "date"
    ∧ (searchValueDataType value = "number" ∨ searchValueDataType value = typeOf value)
    ∧ e.1 ≠ k := by
  refine ⟨(searchValueDataType_ne_date value).1, (searchValueDataType_ne_date value).2, ?_⟩
  intro hek
  obtain ⟨-, -, fields, -, -, hcl⟩ := buildQuery_or_clause rt m q a qry _ e h hor he
  rw [hek] at hcl
  have hkind := (searchValueDataType_ne_date (Search.valueOf q.search)).1
  by_cases hc : fields.contains (JSVal.str k) = true
  · rw [if_pos hc, hty] at hcl
    simp [clauseOf, hkind] at hcl
  · rw [if_neg hc] at hcl
    simp [clauseOf] at hcl

theorem buildQuery_no_date_clause_witness :
    Obj.get? exampleModel.schemaPaths "created" = some "Date"
    ∧ buildQuery exampleRuntime exampleModel yearRequest none = .ok yearQuery
    ∧ yearQuery.or = some [("name", .eq (.str "2024"))]
    ∧ (("name", Cond.eq (.str "2024")) : String × Cond) ∈ [("name", Cond.eq (.str "2024"))]
    ∧ searchValueDataType (.str "2024") ≠ "date"
    ∧ (searchValueDataType (.str "2024") = "number"
        ∨ searchValueDataType (.str "2024") = typeOf (.str "2024"))
    ∧ "name" ≠ "created" :=
  ⟨rfl, rfl, rfl, by decide,
    buildQuery_no_date_clause (.str "2024") exampleRuntime exampleModel yearRequest none
      yearQuery [("name", .eq (.str "2024"))] ("name", .eq (.str "2024")) "created"
      rfl rfl rfl (by decide)⟩

/-! ## Sorting with repeated fields, and when sorting fails -/

theorem sortCriteria_eq_foldl (columns : List Column) (order : List ColumnOrder) (acc : Obj Int)
    (hvalid : ∀ o ∈ order, (columnAt columns o.column).isSome = true) :
    sortCriteria columns order acc
      = .ok ((sortKeySpec columns order).foldl (fun o e => Obj.set o e.1 e.2) acc) := by
  induction order generalizing acc with
  | nil => simp [sortCriteria, sortKeySpec]
  | cons o rest ih =>
    obtain ⟨col, hcol⟩ := Option.isSome_iff_exists.mp (hvalid o (List.mem_cons_self _ _))
    rw [sortKeySpec_cons_some columns o rest col hcol]
    simp only [sortCriteria, hcol, List.foldl_cons]
    exact ih _ (fun o' ho' => hvalid o' (List.mem_cons_of_mem _ ho'))

theorem Obj.has_iff_mem_keys {α : Type} (o : Obj α) (k : String) :
    Obj.has o k = true ↔ k ∈ Obj.keys o := by
  simp [Obj.has, Obj.keys]

theorem Obj.keys_replace {α : Type} (o : Obj α) (k : String) (v : α) :
    Obj.keys (Obj.replace o k v) = Obj.keys o := by
  unfold Obj.keys Obj.replace
  rw [List.map_map]
  apply List.map_congr_left
  intro e _
  simp only [Function.comp]
  split
  · rename_i h; exact h.symm
  · rfl

theorem Obj.keys_set_plain {α : Type} (o : Obj α) (k : String) (v : α)
    (hidx : arrayIndex? k = none) (hproto : k ≠ "__proto__") :
    Obj.keys (Obj.set o k v) = if k ∈ Obj.keys o then Obj.keys o else Obj.keys o ++ [k] := by
  unfold Obj.set Obj.define
  rw [if_neg hproto]
  by_cases hh : Obj.has o k = true
  · rw [if_pos hh, if_pos ((Obj.has_iff_mem_keys o k).mp hh), Obj.keys_replace]
  · rw [if_neg hh, if_neg (fun hm => hh ((Obj.has_iff_mem_keys o k).mpr hm)), hidx]
    simp [Obj.keys]

theorem keys_foldl_set (s : Obj Int) (acc : Obj Int)
    (hplain : ∀ e ∈ s, arrayIndex? e.1 = none ∧ e.1 ≠ "__proto__") :
    Obj.keys (s.foldl (fun o e => Obj.set o e.1 e.2) acc)
      = Obj.keys acc
        ++ (firstOccurrences (s.map Prod.fst)).filter (fun k => decide (k ∉ Obj.keys acc)) := by
  induction s generalizing acc with
  | nil => simp [firstOccurrences]
  | cons e rest ih =>
    obtain ⟨k, v⟩ := e
    have hk := hplain (k, v) (List.mem_cons_self _ _)
    rw [List.foldl_cons, ih _ (fun e he => hplain e (List.mem_cons_of_mem _ he))]
    simp only [List.map_cons, firstOccurrences]
    rw [Obj.keys_set_plain acc k v hk.1 hk.2]
    by_cases hmem : k ∈ Obj.keys acc
    · rw [if_pos hmem]
      congr 1
      rw [List.filter_cons]
      simp only [hmem, not_true_eq_false, decide_False, Bool.false_eq_true, if_false]
      rw [List.filter_filter]
      apply List.filter_congr
      intro x _
      by_cases hx : x ∈ Obj.keys acc
      · simp [hx]
      · have : x ≠ k := fun hxk => hx (hxk ▸ hmem)
        simp [hx, this]
    · rw [if_neg hmem, List.append_assoc]
      congr 1
      rw [List.filter_cons]
      simp only [hmem, not_false_eq_true, decide_True, if_true, List.singleton_append]
      congr 1
      rw [List.filter_filter]
      apply List.filter_congr
      intro x _
      by_cases hx : x ∈ Obj.keys acc
      · simp [hx]
      · by_cases hxk : x = k
        · simp [hxk]
        · simp [hx, hxk]

theorem get?_foldl_set (s : Obj Int) (acc : Obj Int) (k : String)
    (hplain : ∀ e ∈ s, e.1 ≠ "__proto__") :
    Obj.get? (s.foldl (fun o e => Obj.set o e.1 e.2) acc) k
      = (Obj.get? s k).orElse (fun _ => Obj.get? acc k) := by
  induction s generalizing acc with
  | nil => simp [Obj.get?_nil]
  | cons e rest ih =>
    obtain ⟨k1, v1⟩ := e
    have hk := hplain (k1, v1) (List.mem_cons_self _ _)
    rw [List.foldl_cons, ih _ (fun e he => hplain e (List.mem_cons_of_mem _ he)),
      Obj.get?_set _ _ _ _ hk, Obj.get?_cons]
    cases Obj.get? rest k with
    | some w => simp
    | none =>
      by_cases h : k = k1
      · subst h; simp
      · have : ¬ k1 = k := fun h3 => h h3.symm
        simp [h, this]

theorem mem_firstOccurrences (ks : List String) (k : String) :
    k ∈ firstOccurrences ks ↔ k ∈ ks := by
  induction ks with
  | nil => simp [firstOccurrences]
  | cons x rest ih =>
    simp only [firstOccurrences, List.mem_cons, List.mem_filter, ih]
    by_cases h : k = x
    · simp [h]
    · simp [h]

theorem nodup_firstOccurrences (ks : List String) : (firstOccurrences ks).Nodup := by
  induction ks with
  | nil => simp [firstOccurrences]
  | cons x rest ih =>
    simp only [firstOccurrences, List.nodup_cons, List.mem_filter]
    refine ⟨?_, ih.filter _⟩
    rintro ⟨-, h⟩
    simp at h

theorem length_firstOccurrences (ks : List String) :
    (firstOccurrences ks).length = ks.dedup.length := by
  rw [← List.toFinset_card_of_nodup (nodup_firstOccurrences ks),
    ← List.toFinset_card_of_nodup (List.nodup_dedup ks)]
  congr 1
  ext k
  simp [mem_firstOccurrences]

/-- C18, as amended: when no field name that `order` resolves to is an array-index key or
`__proto__`, the sort given to the Store has each field name once, in the order of the
first occurrences, each with the direction of its last occurrence; so it has as many keys
as `order` has distinct field names. -/
theorem sorting_repeated_fields (rt : Runtime) (m : Model) (q : QueryOptions)
    (a : Option (Obj Cond)) (qry query0 : Query)
    (hne : q.order.getD [] ≠ [])
    (hvalid : ∀ o ∈ q.order.getD [], (columnAt (q.columns.getD []) o.column).isSome = true)
    (hplain : ∀ e ∈ sortKeySpec (q.columns.getD []) (q.order.getD []),
      arrayIndex? e.1 = none ∧ e.1 ≠ "__proto__")
    (h : buildQuery rt m q a = .ok qry) :
    ∃ sc, sorting (q.order.getD []) (q.columns.getD []) query0
        = .ok { query0 with sort := some sc }
      ∧ qry.sort = some sc
      ∧ Obj.keys sc
          = firstOccurrences ((sortKeySpec (q.columns.getD []) (q.order.getD [])).map Prod.fst)
      ∧ (Obj.keys sc).Nodup
      ∧ (∀ k, Obj.get? sc k = Obj.get? (sortKeySpec (q.columns.getD []) (q.order.getD [])) k)
      ∧ sc.length
          = ((sortKeySpec (q.columns.getD []) (q.order.getD [])).map Prod.fst).dedup.length := by
  have hsc := sortCriteria_eq_foldl (q.columns.getD []) (q.order.getD []) [] hvalid
  have hlen : ((q.order.getD []).length != 0) = true := by
    cases hq : q.order.getD [] with
    | nil => exact absurd hq hne
    | cons _ _ => simp
  have hsort : ∀ query, sorting (q.order.getD []) (q.columns.getD []) query
      = .ok { query with sort := some ((sortKeySpec (q.columns.getD []) (q.order.getD [])).foldl
          (fun o e => Obj.set o e.1 e.2) []) } := by
    intro query
    unfold sorting
    rw [if_pos hlen, hsc]
  have hkeys := keys_foldl_set (sortKeySpec (q.columns.getD []) (q.order.getD [])) [] hplain
  have hkeys' : Obj.keys ((sortKeySpec (q.columns.getD []) (q.order.getD [])).foldl
      (fun o e => Obj.set o e.1 e.2) [])
      = firstOccurrences ((sortKeySpec (q.columns.getD []) (q.order.getD [])).map Prod.fst) := by
    rw [hkeys]
    simp [Obj.keys]
  refine ⟨_, hsort query0, ?_, hkeys', ?_, ?_, ?_⟩
  · obtain ⟨q1, q2, q3, h1, h2, h3, hq⟩ := (buildQuery_ok_iff rt m q a qry).mp h
    rw [hsort q2] at h3
    cases h3
    rw [hq]
  · rw [hkeys']
    exact nodup_firstOccurrences _
  · intro k
    rw [get?_foldl_set _ _ _ (fun e he => (hplain e he).2), Obj.get?_nil]
    cases Obj.get? (sortKeySpec (q.columns.getD []) (q.order.getD [])) k <;> rfl
  · have : ((sortKeySpec (q.columns.getD []) (q.order.getD [])).foldl
        (fun o e => Obj.set o e.1 e.2) ([] : Obj Int)).length
        = (Obj.keys ((sortKeySpec (q.columns.getD []) (q.order.getD [])).foldl
            (fun o e => Obj.set o e.1 e.2) ([] : Obj Int))).length := by
      simp [Obj.keys]
    rw [this, hkeys', length_firstOccurrences]

theorem sorting_repeated_fields_witness :
    repeatRequest.order.getD [] ≠ []
    ∧ (∀ o ∈ repeatRequest.order.getD [],
        (columnAt (repeatRequest.columns.getD []) o.column).isSome = true)
    ∧ (∀ e ∈ sortKeySpec (repeatRequest.columns.getD []) (repeatRequest.order.getD []),
        arrayIndex? e.1 = none ∧ e.1 ≠ "__proto__")
    ∧ buildQuery exampleRuntime exampleModel repeatRequest none = .ok repeatQuery
    ∧ sortKeySpec (repeatRequest.columns.getD []) (repeatRequest.order.getD [])
        = [("a", 1), ("b", 1), ("a", -1)]
    ∧ repeatQuery.sort = some [("a", -1), ("b", 1)]
    ∧ ∃ sc, sorting (repeatRequest.order.getD []) (repeatRequest.columns.getD []) repeatQuery
        = .ok { repeatQuery with sort := some sc }
      ∧ repeatQuery.sort = some sc
      ∧ Obj.keys sc = firstOccurrences
          ((sortKeySpec (repeatRequest.columns.getD []) (repeatRequest.order.getD [])).map
            Prod.fst)
      ∧ (Obj.keys sc).Nodup
      ∧ (∀ k, Obj.get? sc k
          = Obj.get? (sortKeySpec (repeatRequest.columns.getD []) (repeatRequest.order.getD []))
              k)
      ∧ sc.length
          = ((sortKeySpec (repeatRequest.columns.getD []) (repeatRequest.order.getD [])).map
              Prod.fst).dedup.length :=
  ⟨by decide, by decide, by decide, rfl, rfl, rfl,
    sorting_repeated_fields exampleRuntime exampleModel repeatRequest none repeatQuery
      repeatQuery (by decide) (by decide) (by decide) rfl⟩

/-- C18, counterexample: the field `b` is named first and last in `order` with `1` in
between, and the sort has the key `1` before the key `b`, which is not at the position of
its first occurrence; the field `__proto__` is named twice and the sort has no key, not
one. -/
theorem sorting_repeated_fields_misplaced :
    (sorting [{ column := 0, dir := .str "asc" }, { column := 1, dir := .str "asc" },
              { column := 0, dir := .str "desc" }]
        [{ data := .str "b" }, { data := .str "1" }] { conditions := [] }
      = .ok { conditions := [], sort := some [("1", 1), ("b", -1)] }
     ∧ firstOccurrences ((sortKeySpec [{ data := .str "b" }, { data := .str "1" }]
        [{ column := 0, dir := .str "asc" }, { column := 1, dir := .str "asc" },
         { column := 0, dir := .str "desc" }]).map Prod.fst) = ["b", "1"]
     ∧ Obj.keys ([("1", 1), ("b", -1)] : Obj Int) ≠ ["b", "1"])
    ∧ (sorting [{ column := 0, dir := .str "asc" }, { column := 0, dir := .str "desc" }]
        [{ data := .str "__proto__" }] { conditions := [] }
      = .ok { conditions := [], sort := some [] }
     ∧ ((sortKeySpec [{ data := .str "__proto__" }]
        [{ column := 0, dir := .str "asc" }, { column := 0, dir := .str "desc" }]).map
          Prod.fst).dedup.length = 1
     ∧ ([] : Obj Int).length ≠ 1) :=
  ⟨⟨rfl, rfl, by decide⟩, ⟨rfl, by decide, by decide⟩⟩

theorem sortCriteria_error_iff (columns : List Column) (order : List ColumnOrder)
    (acc : Obj Int) :
    ((∃ err, sortCriteria columns order acc = .error err)
      ↔ ∃ o ∈ order, columnAt columns o.column = none)
    ∧ (∀ err, sortCriteria columns order acc = .error err → err = .typeError) := by
  induction order generalizing acc with
  | nil => simp [sortCriteria]
  | cons o rest ih =>
    cases hcol : columnAt columns o.column with
    | none =>
      simp only [sortCriteria, hcol]
      refine ⟨⟨fun _ => ⟨o, List.mem_cons_self _ _, hcol⟩, fun _ => ⟨_, rfl⟩⟩, ?_⟩
      intro err herr
      cases herr
      rfl
    | some col =>
      simp only [sortCriteria, hcol]
      obtain ⟨ih1, ih2⟩ := ih (Obj.set acc (toStr col.data)
        (if o.dir = JSVal.str "asc" then 1 else -1))
      refine ⟨?_, ih2⟩
      rw [ih1]
      constructor
      · rintro ⟨o', ho', hn⟩
        exact ⟨o', List.mem_cons_of_mem _ ho', hn⟩
      · rintro ⟨o', ho', hn⟩
        rcases List.mem_cons.mp ho' with rfl | ho''
        · rw [hcol] at hn
          cases hn
        · exact ⟨o', ho'', hn⟩

theorem sorting_error_iff (columns : List Column) (order : List ColumnOrder) (query : Query) :
    ((∃ err, sorting order columns query = .error err)
      ↔ ∃ o ∈ order, columnAt columns o.column = none)
    ∧ (∀ err, sorting order columns query = .error err → err = .typeError) := by
  obtain ⟨h1, h2⟩ := sortCriteria_error_iff columns order []
  unfold sorting
  by_cases hlen : (order.length != 0) = true
  · rw [if_pos hlen]
    cases hsc : sortCriteria columns order [] with
    | error err =>
      rw [hsc] at h1 h2
      refine ⟨⟨fun _ => h1.mp ⟨err, rfl⟩, fun _ => ⟨err, rfl⟩⟩, ?_⟩
      intro err' herr
      simp only [Except.error.injEq] at herr
      rw [← herr]
      exact h2 err rfl
    | ok sc =>
      rw [hsc] at h1
      refine ⟨⟨fun hx => ?_, fun hx => ?_⟩, ?_⟩
      · obtain ⟨err, herr⟩ := hx
        cases herr
      · obtain ⟨err, herr⟩ := h1.mpr hx
        cases herr
      · intro err herr
        cases herr
  · rw [if_neg hlen]
    have hnil : order = [] := by
      cases order with
      | nil => rfl
      | cons _ _ => simp at hlen
    subst hnil
    refine ⟨⟨fun hx => ?_, fun hx => ?_⟩, ?_⟩
    · obtain ⟨err, herr⟩ := hx
      cases herr
    · obtain ⟨o, ho, -⟩ := hx
      cases ho
    · intro err herr
      cases herr

/-- C19: the sorting step fails exactly when some entry of `order` names a column index
that has no element in `columns`; it then throws a `TypeError` and no response is
returned; when every entry names a valid index, the sorting step returns. -/
theorem sorting_fails_iff (rt : Runtime) (m : Model) (q : QueryOptions)
    (a : Option (Obj Cond)) (query0 : Query) :
    ((∃ err, sorting (q.order.getD []) (q.columns.getD []) query0 = .error err)
      ↔ ∃ o ∈ q.order.getD [], columnAt (q.columns.getD []) o.column = none)
    ∧ ((∃ o ∈ q.order.getD [], columnAt (q.columns.getD []) o.column = none) →
        sorting (q.order.getD []) (q.columns.getD []) query0 = .error .typeError
        ∧ ∀ r, exports rt m q a ≠ .ok r)
    ∧ ((∀ o ∈ q.order.getD [], (columnAt (q.columns.getD []) o.column).isSome = true) →
        ∃ q3, sorting (q.order.getD []) (q.columns.getD []) query0 = .ok q3) := by
  have hiff := fun query => sorting_error_iff (q.columns.getD []) (q.order.getD []) query
  refine ⟨(hiff query0).1, ?_, ?_⟩
  · intro hbad
    constructor
    · obtain ⟨err, herr⟩ := (hiff query0).1.mpr hbad
      rw [herr, (hiff query0).2 err herr]
    · intro r hr
      obtain ⟨qry, _, _, hb, _, _, _⟩ := (exports_ok_iff rt m q a r).mp hr
      obtain ⟨q1, q2, q3, _, _, h3, _⟩ := (buildQuery_ok_iff rt m q a qry).mp hb
      obtain ⟨err, herr⟩ := (hiff q2).1.mpr hbad
      rw [herr] at h3
      cases h3
  · intro hvalid
    cases hs : sorting (q.order.getD []) (q.columns.getD []) query0 with
    | ok q3 => exact ⟨q3, rfl⟩
    | error err =>
      obtain ⟨o, ho, hn⟩ := (hiff query0).1.mp ⟨err, hs⟩
      have := hvalid o ho
      rw [hn] at this
      cases this

/-! ## The numeric clause -/

theorem searchValue_of_compiles (rt : Runtime) (regex value : JSVal)
    (hv : toBoolean value = true)
    (hre : toBoolean regex = false ∨ rt.regExpOk (toStr value) = true) :
    searchValue rt regex value = .ok (matchValueSpec regex value) := by
  unfold searchValue matchValueSpec
  cases hr : toBoolean regex with
  | false => simp
  | true =>
    rcases hre with hre | hre
    · rw [hr] at hre
      cases hre
    · simp only [if_true]
      rw [newRegExp_of_truthy rt value hv, if_pos hre]

/-- C10, as amended: when the general search term is not `NaN` as a number, and
`search.regex` is false or the term is a pattern `new RegExp` accepts, the general search
returns, and a searchable field whose schema type is `Number` has in the OR group the
clause that equates it with the literal term, and no other clause. -/
theorem buildQuery_number_clause (rt : Runtime) (m : Model) (q : QueryOptions)
    (a : Option (Obj Cond)) (qry query0 : Query) (fields : List JSVal) (path : String)
    (hv : toBoolean (Search.valueOf q.search) = true)
    (hnum : isNaN (Search.valueOf q.search) = false)
    (hre : toBoolean (Search.regexOf q.search) = false
      ∨ rt.regExpOk (toStr (Search.valueOf q.search)) = true)
    (hf : searchableFields rt (q.columns.getD []) = .ok fields)
    (hmem : JSVal.str path ∈ fields)
    (hty : Obj.get? m.schemaPaths path = some "Number")
    (hp : path ≠ "__proto__")
    (h : buildQuery rt m q a = .ok qry) :
    ∃ orClauses,
      generalSearch rt m q.search (q.columns.getD []) query0
        = .ok { query0 with or := some orClauses }
      ∧ qry.or = some orClauses
      ∧ (path, Cond.eq (Search.valueOf q.search)) ∈ orClauses
      ∧ ∀ e ∈ orClauses, e.1 = path → e.2 = Cond.eq (Search.valueOf q.search) := by
  have hsv := searchValue_of_compiles rt _ _ hv hre
  obtain ⟨sv', fields', hsv', hf', hor⟩ := buildQuery_or_of_truthy rt m q a qry hv h
  rw [hsv] at hsv'
  rw [hf] at hf'
  cases hsv'
  cases hf'
  have hget : Obj.get? (searchFilter (dataTypeMap m fields)
      (matchValueSpec (Search.regexOf q.search) (Search.valueOf q.search))
      (Search.valueOf q.search) (searchValueDataType (Search.valueOf q.search)) fields) path
      = some (.eq (Search.valueOf q.search)) := by
    rw [searchFilter_get?, if_pos ⟨⟨_, hmem, rfl⟩, hp⟩, dataTypeMap_get? m fields path hmem hp,
      hty, searchValueDataType_of_not_isNaN _ hnum]
    simp [clauseOf]
  obtain ⟨hin, honly⟩ := generalSearchValuesFilter_mem _ _ _ hget
  refine ⟨_, ?_, hor, hin, honly⟩
  unfold generalSearch
  rw [if_pos hv, hsv, hf]

theorem buildQuery_number_clause_witness :
    toBoolean (Search.valueOf ageRequest.search) = true
    ∧ isNaN (Search.valueOf ageRequest.search) = false
    ∧ (toBoolean (Search.regexOf ageRequest.search) = false
        ∨ exampleRuntime.regExpOk (toStr (Search.valueOf ageRequest.search)) = true)
    ∧ toBoolean (Search.regexOf ageRequest.search) = true
    ∧ searchableFields exampleRuntime (ageRequest.columns.getD []) = .ok [.str "age"]
    ∧ JSVal.str "age" ∈ [JSVal.str "age"]
    ∧ Obj.get? exampleModel.schemaPaths "age" = some "Number"
    ∧ "age" ≠ "__proto__"
    ∧ buildQuery exampleRuntime exampleModel ageRequest none = .ok ageQuery
    ∧ ageQuery.or = some [("age", .eq (.str "30"))]
    ∧ ∃ orClauses,
      generalSearch exampleRuntime exampleModel ageRequest.search
          (ageRequest.columns.getD []) ageQuery
        = .ok { ageQuery with or := some orClauses }
      ∧ ageQuery.or = some orClauses
      ∧ ("age", Cond.eq (Search.valueOf ageRequest.search)) ∈ orClauses
      ∧ ∀ e ∈ orClauses, e.1 = "age" → e.2 = Cond.eq (Search.valueOf ageRequest.search) :=
  ⟨rfl, rfl, Or.inr rfl, rfl, rfl, List.mem_singleton.mpr rfl, rfl, by decide, rfl, rfl,
    buildQuery_number_clause exampleRuntime exampleModel ageRequest none ageQuery ageQuery
      [.str "age"] "age" rfl rfl (Or.inr rfl) rfl (List.mem_singleton.mpr rfl) rfl
      (by decide) rfl⟩

/-- C10, counterexample: the term `+5` is a number, `age` is a searchable field of schema
type `Number`, and `search.regex` is true; `new RegExp("+5", "ig")` is evaluated before any
clause is built and throws a `SyntaxError`, so no OR group and no clause on `age` exist.
With `search.regex` false the same request builds the clause. -/
theorem buildQuery_number_term_bad_pattern :
    toBoolean (Search.valueOf plusFiveRequest.search) = true
    ∧ isNaN (Search.valueOf plusFiveRequest.search) = false
    ∧ toBoolean (Search.regexOf plusFiveRequest.search) = true
    ∧ searchableFields exampleRuntime (plusFiveRequest.columns.getD []) = .ok [.str "age"]
    ∧ Obj.get? exampleModel.schemaPaths "age" = some "Number"
    ∧ exampleRuntime.regExpOk "+5" = false
    ∧ buildQuery exampleRuntime exampleModel plusFiveRequest none = .error .syntaxError
    ∧ (∀ r, exports exampleRuntime exampleModel plusFiveRequest none ≠ .ok r)
    ∧ buildQuery exampleRuntime exampleModel
        { plusFiveRequest with search := some { value := .str "+5", regex := .bool false } }
        none
      = .ok { conditions := [], populate := some [], or := some [("age", .eq (.str "+5"))],
              sort := some [("_id", -1)], skip := some (.num 0), limit := some (.num 0) } :=
  ⟨rfl, rfl, rfl, rfl, rfl, rfl, rfl,
    (fun r hr => by
      have hx : exports exampleRuntime exampleModel plusFiveRequest none
          = .error .syntaxError := rfl
      rw [hx] at hr
      cases hr),
    rfl⟩

end DataTables
